import Mathlib

/-!
Formal model of the Contour generic CSV import framework
(`api/services/import_framework/` and the import routes), embedded shallowly
in Lean 4.  Python functions are translated into executable Lean definitions:
strings stay strings, Python dicts become association lists with insertion
semantics, Python sets of row numbers become finite sets, float confidence
scores become rationals, and the external record store and AI oracle become
explicit function parameters.  Theorems at the end of the file settle the
behavioural claims about the classifier, the pair detector, the analyze
merge, the validation engine, the execution engine and the rate limiter.
-/

namespace Contour

/-! ## Python string primitives

The CSV values handled by the import framework are ASCII; on that fragment
the following definitions agree with the Python `str` methods they model. -/

/-- Characters stripped by Python `str.strip()` (the ASCII whitespace set
`" \t\n\r\x0b\x0c"`). -/
def isPySpace (c : Char) : Bool :=
  c = ' ' || c = '\t' || c = '\n' || c = '\r' || c = '\x0b' || c = '\x0c'

/-- Python `str.strip()`: remove leading and trailing whitespace. -/
def pyStrip (s : String) : String :=
  ⟨((s.data.dropWhile isPySpace).reverse.dropWhile isPySpace).reverse⟩

/-- Python `str.lower()` (ASCII case folding). -/
def pyLower (s : String) : String :=
  ⟨s.data.map Char.toLower⟩

/-- Characters matched by the regex character class `[\s_-]` used in
`_classify_single_column` for header normalization. -/
def isSepChar (c : Char) : Bool :=
  isPySpace c || c = '_' || c = '-'

/-- Worker for `subSeps`: the flag records whether the previous character
belonged to a separator run (whose underscore has already been emitted). -/
def subSepsGo : Bool → List Char → List Char
  | _, [] => []
  | inRun, c :: rest =>
    if isSepChar c then
      if inRun then subSepsGo true rest else '_' :: subSepsGo true rest
    else c :: subSepsGo false rest

/-- Python `re.sub(r"[\s_-]+", "_", s)`: replace every maximal run of
separator characters by a single underscore. -/
def subSeps (l : List Char) : List Char := subSepsGo false l

/-- The `header_lower` computed by `_classify_single_column`:
`header.lower().strip()`. -/
def headerLower (h : String) : String := pyStrip (pyLower h)

/-- The `header_normalized` computed by `_classify_single_column`:
`re.sub(r"[\s_-]+", "_", header_lower)`. -/
def headerNormalized (h : String) : String := ⟨subSeps (headerLower h).data⟩

/-- Python substring test `sub in s`. -/
def strContains (s sub : String) : Bool := decide (sub.data <:+: s.data)

/-! ## A small regex interpreter

The classifier and the pair detector use a fixed, finite table of Python
regexes.  We interpret them with a continuation passing matcher over the
constructs those concrete patterns actually use: literals, character
classes, alternation, option, star and plus over a character class, and the
end anchor.  `re.match` anchors at position 0 and accepts any match of a
prefix; a final `$` inside a pattern is the explicit `eos` node. -/

inductive Rx where
  | eps : Rx
  | cls (p : Char → Bool) : Rx
  | seq (a b : Rx) : Rx
  | alt (a b : Rx) : Rx
  | opt (a : Rx) : Rx
  | starCls (p : Char → Bool) : Rx
  | plusCls (p : Char → Bool) : Rx
  | eos : Rx

/-- Match zero or more characters of class `p`, then try the continuation at
every stopping point. -/
def starRun (p : Char → Bool) (k : List Char → Bool) : List Char → Bool
  | [] => k []
  | c :: rest => k (c :: rest) || (p c && starRun p k rest)

/-- Backtracking matcher: `accept r s k` holds when some prefix of `s` is
matched by `r` and the continuation `k` accepts the corresponding rest. -/
def accept : Rx → List Char → (List Char → Bool) → Bool
  | .eps, s, k => k s
  | .cls p, s, k =>
    match s with
    | [] => false
    | c :: rest => p c && k rest
  | .seq a b, s, k => accept a s (fun rest => accept b rest k)
  | .alt a b, s, k => accept a s k || accept b s k
  | .opt a, s, k => accept a s k || k s
  | .starCls p, s, k => starRun p k s
  | .plusCls p, s, k =>
    match s with
    | [] => false
    | c :: rest => p c && starRun p k rest
  | .eos, s, k =>
    match s with
    | [] => k []
    | _ :: _ => false

/-- Python `re.match(r, s)` viewed as a Boolean: a match starting at
position 0 (any prefix unless the pattern ends in `$`). -/
def reMatch (r : Rx) (s : String) : Bool :=
  accept r s.data (fun _ => true)

/-- Python `re.search(r, s)` viewed as a Boolean: a match starting at any
position. -/
def reSearch (r : Rx) (s : String) : Bool :=
  (s.data.tails).any (fun t => accept r t (fun _ => true))

/-- Single literal character. -/
def chrRx (c : Char) : Rx := .cls (· = c)

/-- Literal string. -/
def strRx (s : String) : Rx :=
  s.data.foldr (fun c acc => .seq (chrRx c) acc) .eps

/-- Alternation over a list of regexes (left to right, as in the source
patterns). -/
def altL : List Rx → Rx
  | [] => .cls (fun _ => false)
  | r :: rs => rs.foldl Rx.alt r

/-- Regex `\d` (the inputs are ASCII). -/
def digitCls : Rx := .cls Char.isDigit

/-- Character class `[_\s-]`. -/
def sepCls : Rx := .cls isSepChar

/-- Pattern fragment `[_\s-]?`. -/
def sepOpt : Rx := .opt sepCls

/-- Pattern fragment `a[_\s-]?b` for literal words `a` and `b`. -/
def wordSep (a b : String) : Rx := .seq (strRx a) (.seq sepOpt (strRx b))

/-- Pattern fragment `a_?b` for literal words `a` and `b`. -/
def wordOptU (a b : String) : Rx := .seq (strRx a) (.seq (.opt (chrRx '_')) (strRx b))

/-- Sequence of a list of regexes. -/
def seqL : List Rx → Rx
  | [] => .eps
  | r :: rs => rs.foldl Rx.seq r

/-! ## The pattern tables of `classifier.py`

Each entry is the direct translation of one regex from
`UNIVERSAL_SKIP_PATTERNS`.  The patterns are applied with `re.match` and
`re.IGNORECASE` to `header_normalized`, which is already lowercased, so the
case flag is immaterial; pattern 7, `(timestamp|datetime)$`, is not
start-anchored in the source text but `re.match` anchors it at position 0
anyway. -/

def UNIVERSAL_SKIP_PATTERNS : List Rx := [
  -- r"^(id|uuid|guid)$"
  .seq (altL [strRx "id", strRx "uuid", strRx "guid"]) .eos,
  -- r"^(created|updated|modified|deleted)_(at|on|date|time)$"
  seqL [altL [strRx "created", strRx "updated", strRx "modified", strRx "deleted"],
        chrRx '_', altL [strRx "at", strRx "on", strRx "date", strRx "time"], .eos],
  -- r"^(row_?id|record_?id|internal_?id|system_?id)$"
  .seq (altL [wordOptU "row" "id", wordOptU "record" "id",
              wordOptU "internal" "id", wordOptU "system" "id"]) .eos,
  -- r"^(import|export|sync)_(id|date|time|status)$"
  seqL [altL [strRx "import", strRx "export", strRx "sync"], chrRx '_',
        altL [strRx "id", strRx "date", strRx "time", strRx "status"], .eos],
  -- r"^_"
  chrRx '_',
  -- r"^(legacy|old|deprecated|archive)_"
  .seq (altL [strRx "legacy", strRx "old", strRx "deprecated", strRx "archive"]) (chrRx '_'),
  -- r"(timestamp|datetime)$"
  .seq (altL [strRx "timestamp", strRx "datetime"]) .eos,
  -- r"^(last_?modified|date_?added|date_?created)$"
  .seq (altL [wordOptU "last" "modified", wordOptU "date" "added",
              wordOptU "date" "created"]) .eos,
  -- r"^(is_?active|is_?deleted|is_?archived|active|deleted|archived)$"
  .seq (altL [wordOptU "is" "active", wordOptU "is" "deleted", wordOptU "is" "archived",
              strRx "active", strRx "deleted", strRx "archived"]) .eos,
  -- r"^(version|revision|seq|sequence)(_?num(ber)?)?$"
  seqL [altL [strRx "version", strRx "revision", strRx "seq", strRx "sequence"],
        .opt (seqL [.opt (chrRx '_'), strRx "num", .opt (strRx "ber")]), .eos],
  -- r"^(hash|checksum|md5|sha\d*)$"
  .seq (altL [strRx "hash", strRx "checksum", strRx "md5",
              .seq (strRx "sha") (.starCls Char.isDigit)]) .eos,
  -- r"^(sort_?order|display_?order|order_?num)$"
  .seq (altL [wordOptU "sort" "order", wordOptU "display" "order",
              wordOptU "order" "num"]) .eos]

/-- Character class `[a-z]` under `re.IGNORECASE`. -/
def azCls : Rx := .cls (fun c => ('a' ≤ c && c ≤ 'z') || ('A' ≤ c && c ≤ 'Z'))

/-- Direct translation of `UNCERTAIN_INDICATORS`.  The patterns are applied
with `re.search`; the flag records whether the source pattern begins with
`^`, in which case `re.search` degenerates to a match at position 0. -/
def UNCERTAIN_INDICATORS : List (Bool × Rx) := [
  -- r"(custom|misc|other|extra|additional)"
  (false, altL [strRx "custom", strRx "misc", strRx "other", strRx "extra",
                strRx "additional"]),
  -- r"^(field|column|col|data|value)\d*$"
  (true, seqL [altL [strRx "field", strRx "column", strRx "col", strRx "data",
                     strRx "value"], .starCls Char.isDigit, .eos]),
  -- r"^[a-z]{1,3}\d+$"
  (true, seqL [azCls, .opt (.seq azCls (.opt azCls)), .plusCls Char.isDigit, .eos]),
  -- r"^(attr|attribute|prop|property)\d*$"
  (true, seqL [altL [strRx "attr", strRx "attribute", strRx "prop", strRx "property"],
               .starCls Char.isDigit, .eos])]

/-- Evaluate one uncertain indicator on the normalized header, honouring the
anchoring flag. -/
def uncertainHit (hn : String) (ind : Bool × Rx) : Bool :=
  if ind.1 then reMatch ind.2 hn else reSearch ind.2 hn

/-! ## Classifier data model -/

/-- Transient classification result, one per CSV column
(`classifier.ColumnClassification`).  Confidence scores become exact
rationals. -/
structure ColumnClassification where
  csv_column : String
  db_field : Option String
  confidence : ℚ
  reasoning : String
  needs_ai : Bool
deriving DecidableEq, Repr

/-- The filter Python applies to sample values: `[v for v in sample_values
if v and v.strip()]`. -/
def nonEmptySamples (sampleValues : List String) : List String :=
  sampleValues.filter (fun v => !(v == "") && !(pyStrip v == ""))

/-- Direct translation of `_classify_single_column`.  `mappingPatterns` is
`config.get_mapping_patterns()` in declaration order and `domainHints` is
`config.domain_hints`. -/
def classifySingleColumn (header : String) (sampleValues : List String)
    (mappingPatterns : List (String × List Rx)) (domainHints : List String) :
    ColumnClassification :=
  let hLower := headerLower header
  let hNorm := headerNormalized header
  if UNIVERSAL_SKIP_PATTERNS.any (fun r => reMatch r hNorm) then
    ⟨header, none, mkRat 95 100, "Auto-skip: system column pattern", false⟩
  else
    match mappingPatterns.findSome?
        (fun fp => if fp.2.any (fun r => reMatch r hNorm) then some fp.1 else none) with
    | some fieldName =>
      ⟨header, some fieldName, mkRat 95 100,
        "Auto-mapped: matches " ++ fieldName ++ " pattern", false⟩
    | none =>
      let nonEmpty := nonEmptySamples sampleValues
      if nonEmpty.isEmpty then
        ⟨header, none, mkRat 8 10, "Auto-skip: all sample values empty", false⟩
      else if nonEmpty.dedup.length == 1 && decide (3 ≤ nonEmpty.length) then
        ⟨header, none, mkRat 7 10,
          "Auto-skip: all sample values identical (likely constant)", false⟩
      else if UNCERTAIN_INDICATORS.any (uncertainHit hNorm) then
        ⟨header, none, 0, "Needs AI: ambiguous column name", true⟩
      else if domainHints.any (fun hint => strContains hLower hint) then
        ⟨header, none, 0, "Needs AI: may contain relevant domain data", true⟩
      else
        ⟨header, none, mkRat 6 10,
          "Auto-skip: no recognized pattern, likely irrelevant", false⟩

/-- Loop body of `classify_columns_generic`, carried out by recursion over
the headers with the running column index `i`. -/
def classifyColumnsGo (sampleRows : List (List String))
    (mappingPatterns : List (String × List Rx)) (domainHints : List String)
    (skipColumns : List String) :
    ℕ → List String → List ColumnClassification × List String
  | _, [] => ([], [])
  | i, h :: hs =>
    let rest := classifyColumnsGo sampleRows mappingPatterns domainHints skipColumns
      (i + 1) hs
    if h ∈ skipColumns then
      (⟨h, none, 1, "Pre-classified (handled separately)", false⟩ :: rest.1, rest.2)
    else
      let sampleValues := (sampleRows.take 5).map (fun row => row.getD i "")
      let c := classifySingleColumn h sampleValues mappingPatterns domainHints
      if c.needs_ai then (rest.1, h :: rest.2) else (c :: rest.1, rest.2)

/-- Direct translation of `classify_columns_generic`: partition the headers
into rule-resolved classifications and uncertain headers. -/
def classifyColumnsGeneric (headers : List String) (sampleRows : List (List String))
    (mappingPatterns : List (String × List Rx)) (domainHints : List String)
    (skipColumns : List String) : List ColumnClassification × List String :=
  classifyColumnsGo sampleRows mappingPatterns domainHints skipColumns 0 headers

/-! ## Module configuration (`config.py`)

Values that end up in database records are strings or numbers here
(`default_values` for the embedded modules only contains strings; numeric
CSV fields are parsed to rationals).  The `transform` and
`pre_insert_transform` callables of the source are kept as opaque function
fields, and a column pair configuration is carried as the pair of compiled
matching functions `qty column name ↦ captured tier` and
`price column name ↦ captured tier` induced by its two regexes. -/

inductive Val where
  | str (s : String)
  | num (q : ℚ)
deriving DecidableEq, Repr

/-- A record prepared for insertion, as an insertion-ordered association
list mirroring the Python dict. -/
abbrev RecordT := List (String × Val)

/-- Translation of `config.FieldDefinition` (the prompt description is
irrelevant to behaviour and omitted). -/
structure FieldDef where
  name : String
  type : String
  required : Bool := false
  mapping_patterns : List Rx := []
  transform : Option (String → Val) := none

/-- Translation of `config.ImportModuleConfig`.  `composite_unique` and
`conflict_rules` are configuration data never read by the generic
service code under verification and are omitted. -/
structure ImportConfig where
  module_name : String
  table_name : String
  schema : List (String × FieldDef)
  unique_fields : List String := []
  domain_hints : List String := []
  default_values : List (String × Val) := []
  company_id_field : String := "company_id"
  pair_config : Option ((String → Option ℕ) × (String → Option ℕ)) := none
  pre_insert_transform : Option (RecordT → RecordT) := none

/-- Translation of `ImportModuleConfig.get_required_fields`. -/
def getRequiredFields (cfg : ImportConfig) : List String :=
  (cfg.schema.filter (fun p => p.2.required)).map (·.1)

/-- Translation of `ImportModuleConfig.get_mapping_patterns` (fields whose
pattern list is empty are dropped, as by the `if field_def.mapping_patterns`
guard). -/
def getMappingPatterns (cfg : ImportConfig) : List (String × List Rx) :=
  cfg.schema.filterMap
    (fun p => if p.2.mapping_patterns.isEmpty then none else some (p.1, p.2.mapping_patterns))

/-- Pattern fragment `w[_\s-]?(a1|a2|...)` . -/
def wordSepAlt (w : String) (alts : List String) : Rx :=
  seqL [strRx w, sepOpt, altL (alts.map strRx)]

/-- Pattern fragment `w[_\s-]?(a1|a2|...)?` . -/
def wordSepOptAlt (w : String) (alts : List String) : Rx :=
  seqL [strRx w, sepOpt, .opt (altL (alts.map strRx))]

/-! ### The customers module (`modules/customers.py`)

Each `mapping_patterns` entry below is the direct translation of the regex
string at the same position in `CUSTOMERS_CONFIG`. -/

def customerCodePatterns : List Rx := [
  -- r"^(customer[_\s-]?(code|id|number|num|#)?|cust[_\s-]?(code|id))$"
  .seq (altL [wordSepOptAlt "customer" ["code", "id", "number", "num", "#"],
              wordSepAlt "cust" ["code", "id"]]) .eos,
  -- r"^(client[_\s-]?(code|id)|account[_\s-]?(code|id|number|num))$"
  .seq (altL [wordSepAlt "client" ["code", "id"],
              wordSepAlt "account" ["code", "id", "number", "num"]]) .eos,
  -- r"^(vendor[_\s-]?(code|id)|company[_\s-]?(code|id))$"
  .seq (altL [wordSepAlt "vendor" ["code", "id"],
              wordSepAlt "company" ["code", "id"]]) .eos]

def customerNamePatterns : List Rx := [
  -- r"^(name|company[_\s-]?name|customer[_\s-]?name|business[_\s-]?name)$"
  .seq (altL [strRx "name", wordSep "company" "name", wordSep "customer" "name",
              wordSep "business" "name"]) .eos,
  -- r"^(company|customer|client|vendor|account)[_\s-]?name$"
  seqL [altL [strRx "company", strRx "customer", strRx "client", strRx "vendor",
              strRx "account"], sepOpt, strRx "name", .eos],
  -- r"^(full[_\s-]?name|legal[_\s-]?name|dba)$"
  .seq (altL [wordSep "full" "name", wordSep "legal" "name", strRx "dba"]) .eos]

def websitePatterns : List Rx := [
  -- r"^(website|web[_\s-]?site|url|web[_\s-]?address|homepage)$"
  .seq (altL [strRx "website", wordSep "web" "site", strRx "url",
              wordSep "web" "address", strRx "homepage"]) .eos,
  -- r"^(company[_\s-]?website|www)$"
  .seq (altL [wordSep "company" "website", strRx "www"]) .eos]

def contactNamePatterns : List Rx := [
  -- r"^(contact[_\s-]?name|contact[_\s-]?person|primary[_\s-]?contact)$"
  .seq (altL [wordSep "contact" "name", wordSep "contact" "person",
              wordSep "primary" "contact"]) .eos,
  -- r"^(contact|rep|representative)$"
  .seq (altL [strRx "contact", strRx "rep", strRx "representative"]) .eos,
  -- r"^(first[_\s-]?name|last[_\s-]?name)$"
  .seq (altL [wordSep "first" "name", wordSep "last" "name"]) .eos]

def contactPhonePatterns : List Rx := [
  -- r"^(contact[_\s-]?phone|phone[_\s-]?number|phone|telephone|tel)$"
  .seq (altL [wordSep "contact" "phone", wordSep "phone" "number", strRx "phone",
              strRx "telephone", strRx "tel"]) .eos,
  -- r"^(primary[_\s-]?phone|main[_\s-]?phone|work[_\s-]?phone|office[_\s-]?phone)$"
  .seq (altL [wordSep "primary" "phone", wordSep "main" "phone",
              wordSep "work" "phone", wordSep "office" "phone"]) .eos,
  -- r"^(mobile|cell|cell[_\s-]?phone)$"
  .seq (altL [strRx "mobile", strRx "cell", wordSep "cell" "phone"]) .eos]

def contactEmailPatterns : List Rx := [
  -- r"^(contact[_\s-]?email|email[_\s-]?address|email|e[_\s-]?mail)$"
  .seq (altL [wordSep "contact" "email", wordSep "email" "address", strRx "email",
              wordSep "e" "mail"]) .eos,
  -- r"^(primary[_\s-]?email|main[_\s-]?email|work[_\s-]?email)$"
  .seq (altL [wordSep "primary" "email", wordSep "main" "email",
              wordSep "work" "email"]) .eos]

def addressLine1Patterns : List Rx := [
  -- r"^(address[_\s-]?(line)?[_\s-]?1?|street[_\s-]?address|street)$"
  .seq (altL [seqL [strRx "address", sepOpt, .opt (strRx "line"), sepOpt,
                    .opt (chrRx '1')],
              wordSep "street" "address", strRx "street"]) .eos,
  -- r"^(address|addr|mailing[_\s-]?address|shipping[_\s-]?address)$"
  .seq (altL [strRx "address", strRx "addr", wordSep "mailing" "address",
              wordSep "shipping" "address"]) .eos]

def addressLine2Patterns : List Rx := [
  -- r"^(address[_\s-]?(line)?[_\s-]?2|street[_\s-]?address[_\s-]?2)$"
  .seq (altL [seqL [strRx "address", sepOpt, .opt (strRx "line"), sepOpt, chrRx '2'],
              seqL [strRx "street", sepOpt, strRx "address", sepOpt, chrRx '2']]) .eos,
  -- r"^(suite|unit|apt|apartment|floor|building)$"
  .seq (altL [strRx "suite", strRx "unit", strRx "apt", strRx "apartment",
              strRx "floor", strRx "building"]) .eos]

def cityPatterns : List Rx := [
  -- r"^(city|town|municipality|locality)$"
  .seq (altL [strRx "city", strRx "town", strRx "municipality", strRx "locality"]) .eos]

def statePatterns : List Rx := [
  -- r"^(state|province|region|st)$"
  .seq (altL [strRx "state", strRx "province", strRx "region", strRx "st"]) .eos,
  -- r"^(state[_\s-]?province|state[_\s-]?code)$"
  .seq (altL [wordSep "state" "province", wordSep "state" "code"]) .eos]

def postalCodePatterns : List Rx := [
  -- r"^(postal[_\s-]?code|post[_\s-]?code|zip[_\s-]?code|zip|postcode)$"
  .seq (altL [wordSep "postal" "code", wordSep "post" "code", wordSep "zip" "code",
              strRx "zip", strRx "postcode"]) .eos]

def countryPatterns : List Rx := [
  -- r"^(country|nation|country[_\s-]?code)$"
  .seq (altL [strRx "country", strRx "nation", wordSep "country" "code"]) .eos]

/-- Translation of `CUSTOMERS_CONFIG` from `modules/customers.py`. -/
def CUSTOMERS_CONFIG : ImportConfig where
  module_name := "customers"
  table_name := "customers"
  schema := [
    ("customer_code", { name := "customer_code", type := "string", required := true,
                        mapping_patterns := customerCodePatterns }),
    ("name", { name := "name", type := "string", required := true,
               mapping_patterns := customerNamePatterns }),
    ("website", { name := "website", type := "string",
                  mapping_patterns := websitePatterns }),
    ("contact_name", { name := "contact_name", type := "string",
                       mapping_patterns := contactNamePatterns }),
    ("contact_phone", { name := "contact_phone", type := "string",
                        mapping_patterns := contactPhonePatterns }),
    ("contact_email", { name := "contact_email", type := "string",
                        mapping_patterns := contactEmailPatterns }),
    ("address_line1", { name := "address_line1", type := "string",
                        mapping_patterns := addressLine1Patterns }),
    ("address_line2", { name := "address_line2", type := "string",
                        mapping_patterns := addressLine2Patterns }),
    ("city", { name := "city", type := "string", mapping_patterns := cityPatterns }),
    ("state", { name := "state", type := "string", mapping_patterns := statePatterns }),
    ("postal_code", { name := "postal_code", type := "string",
                      mapping_patterns := postalCodePatterns }),
    ("country", { name := "country", type := "string",
                  mapping_patterns := countryPatterns })]
  unique_fields := ["customer_code", "name"]
  domain_hints := ["customer", "client", "vendor", "company", "business",
                   "contact", "phone", "email", "address", "city", "state", "zip"]
  default_values := [("country", .str "USA")]
  company_id_field := "company_id"

/-! ## Column pair detection (`classifier.detect_column_pairs`)

The two compiled regexes only ever act through "does this normalized header
match, and if so which integer does the capture group hold"; they are
therefore passed as functions `String → Option ℕ`.  The `headers_lower`
dict comprehension is modelled by an insertion-ordered association list in
which a repeated key keeps its first position and takes the latest
value. -/

/-- Python `h.lower().replace(" ", "")`. -/
def lowerNoSpace (h : String) : String :=
  ⟨(pyLower h).data.filter (fun c => !(c = ' '))⟩

/-- Python dict assignment `m[k] = v` on an association list. -/
def dictInsert (m : List (String × String)) (k v : String) : List (String × String) :=
  if m.any (fun e => e.1 == k) then
    m.map (fun e => if e.1 == k then (k, v) else e)
  else m ++ [(k, v)]

/-- The `headers_lower` dict `{h.lower().replace(" ", ""): h for h in headers}`. -/
def buildHeadersLower (headers : List String) : List (String × String) :=
  headers.foldl (fun m h => dictInsert m (lowerNoSpace h) h) []

/-- Inner loop of `detect_column_pairs`: the first still-unclaimed entry of
`headers_lower` whose normalized key matches the price pattern with capture
equal to `tier`. -/
def findPriceFor (priceM : String → Option ℕ) (hl : List (String × String))
    (matched : List String) (tier : ℕ) : Option String :=
  hl.findSome? (fun kv =>
    if kv.2 ∈ matched then none
    else
      match priceM kv.1 with
      | some t => if t = tier then some kv.2 else none
      | none => none)

/-- Outer loop of `detect_column_pairs`, accumulating `(tier, qty, price)`
triples and the claimed column list (a Python set; only membership is ever
used). -/
def detectGo (qtyM priceM : String → Option ℕ) (hlAll : List (String × String)) :
    List (String × String) → List (ℕ × String × String) → List String →
    List (ℕ × String × String) × List String
  | [], pairs, matched => (pairs, matched)
  | kv :: rest, pairs, matched =>
    if kv.2 ∈ matched then detectGo qtyM priceM hlAll rest pairs matched
    else
      match qtyM kv.1 with
      | none => detectGo qtyM priceM hlAll rest pairs matched
      | some tier =>
        match findPriceFor priceM hlAll matched tier with
        | some priceOrig =>
          detectGo qtyM priceM hlAll rest (pairs ++ [(tier, kv.2, priceOrig)])
            (matched ++ [kv.2, priceOrig])
        | none => detectGo qtyM priceM hlAll rest pairs matched

/-- Translation of `detect_column_pairs`: the pair list sorted ascending by
captured tier number, plus the claimed columns. -/
def detectColumnPairs (headers : List String) (qtyM priceM : String → Option ℕ) :
    List (String × String) × List String :=
  let hl := buildHeadersLower headers
  let res := detectGo qtyM priceM hl hl [] []
  ((res.1.mergeSort (fun a b => a.1 ≤ b.1)).map (fun t => (t.2.1, t.2.2)), res.2)

/-- Capture helper for the parts pricing patterns, whose shape is
`^(?:w1|w2|...)(\d+)$`: find the first alternative that is a prefix of the
key and is followed by one or more digits, and return those digits as a
number.  Alternatives are tried left to right (with the optional trailing
underscore expanded greedily), exactly as the Python engine backtracks. -/
def capAfterPrefixes (prefixes : List String) (s : String) : Option ℕ :=
  prefixes.findSome? (fun p =>
    if p.data.isPrefixOf s.data then
      let r := s.data.drop p.data.length
      if !r.isEmpty && r.all Char.isDigit then
        some (r.foldl (fun acc c => 10 * acc + (c.toNat - 48)) 0)
      else none
    else none)

/-- Matcher of the parts quantity pattern
`^(?:qty|quantity|minqty|min_qty_?)(\d+)$`. -/
def partsQtyMatch : String → Option ℕ :=
  capAfterPrefixes ["qty", "quantity", "minqty", "min_qty_", "min_qty"]

/-- Matcher of the parts price pattern
`^(?:price|unitprice|unit_price_?)(\d+)$`. -/
def partsPriceMatch : String → Option ℕ :=
  capAfterPrefixes ["price", "unitprice", "unit_price_", "unit_price"]

/-! ## Pre-filter and analyze (`service.py`) -/

/-- Column limit for AI analysis (`MAX_COLUMNS_FOR_AI`). -/
def MAX_COLUMNS_FOR_AI : ℕ := 30

/-- First loop of `GenericImportService._prefilter_columns`: walk the headers
with their index, dropping pre-classified pair columns, and split the rest
into indices with at least one non-empty sample value and 0.95-confidence
discard classifications for the all-empty columns. -/
def prefilterGo (sampleRows : List (List String)) (skipColumns : List String) :
    ℕ → List String → List ℕ × List ColumnClassification
  | _, [] => ([], [])
  | i, h :: hs =>
    let rest := prefilterGo sampleRows skipColumns (i + 1) hs
    if h ∈ skipColumns then rest
    else
      let sampleValues := sampleRows.map (fun row => row.getD i "")
      if (nonEmptySamples sampleValues).isEmpty then
        (rest.1, ⟨h, none, mkRat 95 100, "Auto-skip: all sample values empty", false⟩ :: rest.2)
      else (i :: rest.1, rest.2)

/-- Translation of `GenericImportService._prefilter_columns`. -/
def prefilterColumns (headers : List String) (sampleRows : List (List String))
    (skipColumns : List String) :
    List String × List (List String) × List ColumnClassification :=
  let scan := prefilterGo sampleRows skipColumns 0 headers
  let overLimit := scan.1.drop MAX_COLUMNS_FOR_AI
  let limitClassifications := overLimit.map (fun idx =>
    (⟨headers.getD idx "", none, mkRat 6 10,
      "Auto-skip: column limit exceeded (max " ++ toString MAX_COLUMNS_FOR_AI ++ ")",
      false⟩ : ColumnClassification))
  let nonEmptyIndices := scan.1.take MAX_COLUMNS_FOR_AI
  let filteredHeaders := nonEmptyIndices.map (fun i => headers.getD i "")
  let filteredSampleRows := sampleRows.map (fun row =>
    nonEmptyIndices.map (fun i => row.getD i ""))
  (filteredHeaders, filteredSampleRows, scan.2 ++ limitClassifications)

/-- One entry of the `mappings` list in an analyze response. -/
structure MappingEntry where
  csv_column : String
  db_field : Option String
  confidence : ℚ
  reasoning : String
  needs_review : Bool
deriving DecidableEq, Repr

/-- An AI `MappingSuggestion` as returned by `suggest_column_mappings`; the
oracle is external, so analyze is parameterized by a list of these. -/
structure Suggestion where
  csv_column : String
  db_field : Option String
  confidence : ℚ
  reasoning : String
deriving DecidableEq, Repr

/-- The analyze response body (`cache`/`ai_provider` bookkeeping aside). -/
structure AnalyzeResult where
  mappings : List MappingEntry
  unmapped_required : List String
  discarded_columns : List String
  column_pairs : List (String × String)
deriving DecidableEq, Repr

/-- Merge step of `GenericImportService.analyze`: rule-based classifications
followed by AI suggestions, each with `needs_review = confidence < 0.7`. -/
def mergeMappings (resolved : List ColumnClassification)
    (aiSuggestions : List Suggestion) : List MappingEntry :=
  resolved.map (fun c =>
    ⟨c.csv_column, c.db_field, c.confidence, c.reasoning, decide (c.confidence < mkRat 7 10)⟩)
  ++ aiSuggestions.map (fun s =>
    ⟨s.csv_column, s.db_field, s.confidence, s.reasoning ++ " (AI)",
      decide (s.confidence < mkRat 7 10)⟩)

/-- The `discarded_columns` list: resolved discards, then AI discards, then
any pair column not already present. -/
def discardedColumns (resolved : List ColumnClassification)
    (aiSuggestions : List Suggestion) (pairColumns : List String) : List String :=
  let base := resolved.filterMap
      (fun c => if c.db_field.isNone then some c.csv_column else none)
    ++ aiSuggestions.filterMap
      (fun s => if s.db_field.isNone then some s.csv_column else none)
  pairColumns.foldl (fun acc col => if col ∈ acc then acc else acc ++ [col]) base

/-- Translation of `GenericImportService.analyze` past the cache and rate
limit checks, with the AI oracle response for the uncertain columns supplied
as the parameter `aiSuggestions` (the empty list when no column is
uncertain). -/
def analyzeFresh (cfg : ImportConfig) (headers : List String)
    (sampleRows : List (List String)) (aiSuggestions : List Suggestion) :
    AnalyzeResult :=
  let pairRes := match cfg.pair_config with
    | some pc => detectColumnPairs headers pc.1 pc.2
    | none => ([], [])
  let detectedPairs := pairRes.1
  let pairColumns := pairRes.2
  let pre := prefilterColumns headers sampleRows pairColumns
  let classified := classifyColumnsGeneric pre.1 pre.2.1 (getMappingPatterns cfg)
    cfg.domain_hints pairColumns
  let resolved := pre.2.2 ++ classified.1
  let mappings := mergeMappings resolved aiSuggestions
  let discarded := discardedColumns resolved aiSuggestions pairColumns
  let mappedDbFields := resolved.filterMap (fun c => c.db_field)
    ++ aiSuggestions.filterMap (fun s => s.db_field)
  let unmappedRequired := (getRequiredFields cfg).filter
    (fun f => !(f ∈ mappedDbFields))
  ⟨mappings, unmappedRequired, discarded, detectedPairs⟩

/-! ## Validation engine (`GenericImportService.validate`)

A CSV row is a dict from column name to raw string.  The record store read
performed by `_fetch_existing_records` is abstracted as a function from
unique field name and lowercased value to the id of an existing record
holding that value, mirroring the `field -> value -> record` lookup the
source builds (only the `id` of the record is ever consumed). -/

/-- A parsed CSV row (`dict[str, str]`). -/
abbrev Row := List (String × String)

/-- Python `row.get(c, d)`. -/
def rowGetD (row : Row) (c d : String) : String :=
  match row.find? (fun kv => kv.1 == c) with
  | some kv => kv.2
  | none => d

/-- Python `c in row`. -/
def rowHas (row : Row) (c : String) : Bool :=
  row.any (fun kv => kv.1 == c)

/-- The reversed mapping dict `{v: k for k, v in mappings.items() if v}`:
for a non-empty field the latest CSV column mapped to it wins. -/
def revMapOf (mappings : List (String × String)) (f : String) : Option String :=
  if f = "" then none
  else (mappings.reverse.find? (fun kv => kv.2 == f)).map (·.1)

/-- A conflict entry produced by validate (the presentation-only `message`
string is omitted; `existing_id` is `none` for intra-file duplicates). -/
structure VConflict where
  row_number : ℕ
  conflict_type : String
  field : String
  value : String
  existing_id : Option String
deriving DecidableEq, Repr

/-- A validation error entry (again without the presentation message). -/
structure VError where
  row_number : ℕ
  error_type : String
  field : String
deriving DecidableEq, Repr

/-- The validate response. -/
structure ValidateResult where
  has_conflicts : Bool
  conflicts : List VConflict
  validation_errors : List VError
  valid_rows_count : ℤ
  conflict_rows_count : ℕ
  error_rows_count : ℕ
  skipped_rows_count : ℕ
deriving DecidableEq, Repr

/-- Dict update for the occurrence map of one unique field: append the row
number to the value's entry, creating it if absent. -/
def addOcc (m : List (String × List ℕ)) (v : String) (rn : ℕ) : List (String × List ℕ) :=
  if m.any (fun e => e.1 == v) then
    m.map (fun e => if e.1 == v then (e.1, e.2 ++ [rn]) else e)
  else m ++ [(v, [rn])]

/-- One step of the first validate pass: record the row value for a unique
field unless the field has no truthy mapped column or the value is blank
after stripping. -/
def occStep (csvCol : Option String) (m : List (String × List ℕ)) (p : ℕ × Row) :
    List (String × List ℕ) :=
  match csvCol with
  | none => m
  | some c =>
    if c = "" then m
    else
      let v := pyLower (pyStrip (rowGetD p.2 c ""))
      if v = "" then m else addOcc m v (p.1 + 1)

/-- First pass of validate for one unique field: collect, over the rows in
order, the 1-indexed row numbers producing each non-blank
stripped-and-lowercased value of the mapped column. -/
def occurrencesFor (csvCol : Option String) (rows : List Row) : List (String × List ℕ) :=
  (rows.enum).foldl (occStep csvCol) []

/-- The `csv_duplicates` dict for one field: occurrence entries listing at
least two rows. -/
def csvDupsFor (occ : List (String × List ℕ)) : List (String × List ℕ) :=
  occ.filter (fun e => decide (2 ≤ e.2.length))

/-- Lookup in an occurrence dict. -/
def lookupOcc (m : List (String × List ℕ)) (v : String) : Option (List ℕ) :=
  (m.find? (fun e => e.1 == v)).map (·.2)

/-- Required-field check for one row: one `missing_<field>` error per
required field whose mapped column is blank.  The `continue` in the source
only advances this inner loop over required fields. -/
def requiredErrorsRow (requiredFields : List String)
    (revMap : String → Option String) (rn : ℕ) (row : Row) : List VError :=
  requiredFields.filterMap (fun f =>
    let v := match revMap f with
      | some c => if c = "" then "" else pyStrip (rowGetD row c "")
      | none => ""
    if v = "" then some ⟨rn, "missing_" ++ f, f⟩ else none)

/-- Intra-file duplicate check for one row: a `csv_duplicate` conflict for
each unique field whose value also occurs in another row. -/
def csvDupRow (uniqueFields : List String) (revMap : String → Option String)
    (dups : String → List (String × List ℕ)) (rn : ℕ) (row : Row) : List VConflict :=
  uniqueFields.filterMap (fun f =>
    match revMap f with
    | none => none
    | some c =>
      if c = "" then none
      else
        let v := pyLower (pyStrip (rowGetD row c ""))
        match lookupOcc (dups f) v with
        | some rns =>
          let otherRows := rns.filter (fun r => !(r == rn))
          if otherRows.isEmpty then none
          else some ⟨rn, "csv_duplicate", f, v, none⟩
        | none => none)

/-- Store duplicate check for one row: a `duplicate_<field>` conflict for
each unique field whose non-blank value already exists in the store. -/
def dbConflictRow (uniqueFields : List String) (revMap : String → Option String)
    (store : String → String → Option String) (rn : ℕ) (row : Row) : List VConflict :=
  uniqueFields.filterMap (fun f =>
    match revMap f with
    | none => none
    | some c =>
      if c = "" then none
      else
        let v := pyLower (pyStrip (rowGetD row c ""))
        if v = "" then none
        else
          match store f v with
          | some existingId => some ⟨rn, "duplicate_" ++ f, f, v, some existingId⟩
          | none => none)

/-- Translation of `GenericImportService.validate`. -/
def validatePure (cfg : ImportConfig) (store : String → String → Option String)
    (mappings : List (String × String)) (rows : List Row) : ValidateResult :=
  let revMap := revMapOf mappings
  let dups := fun f => csvDupsFor (occurrencesFor (revMap f) rows)
  let validationErrors := (rows.enum).flatMap (fun p =>
    requiredErrorsRow (getRequiredFields cfg) revMap (p.1 + 1) p.2)
  let conflicts := (rows.enum).flatMap (fun p =>
    csvDupRow cfg.unique_fields revMap dups (p.1 + 1) p.2
    ++ dbConflictRow cfg.unique_fields revMap store (p.1 + 1) p.2)
  let errorRows : Finset ℕ := (validationErrors.map (·.row_number)).toFinset
  let conflictRows : Finset ℕ := (conflicts.map (·.row_number)).toFinset
  let totalSkipped := conflictRows ∪ errorRows
  { has_conflicts := !conflicts.isEmpty
    conflicts := conflicts
    validation_errors := validationErrors
    valid_rows_count := (rows.length : ℤ) - totalSkipped.card
    conflict_rows_count := conflictRows.card
    error_rows_count := errorRows.card
    skipped_rows_count := totalSkipped.card }

/-! ## Execution engine (`GenericImportService.execute`)

Execution re-validates, gates on conflicts, builds records for the
non-skipped rows and hands them to one bulk store insert.  The store write
is external, so the embedding returns the record list passed to that single
insert together with the skipped count; the conflict gate is an `Except`
error, which in the source is the HTTP 400 raised before any insert.
Python float parsing (`round(float(v), 2)`) for fields of type `number` is
abstracted as the parameter `parseNum`. -/

inductive ExecError where
  | conflictsPresent
deriving DecidableEq, Repr

/-- Python dict assignment `r[k] = v` on a record. -/
def recSet (r : RecordT) (k : String) (v : Val) : RecordT :=
  if (r : List (String × Val)).any (fun e => e.1 == k) then
    (r : List (String × Val)).map (fun e => if e.1 == k then (k, v) else e)
  else r ++ [(k, v)]

/-- Python `k in r` on a record. -/
def recHas (r : RecordT) (k : String) : Bool :=
  (r : List (String × Val)).any (fun e => e.1 == k)

/-- Build the record inserted for one row: company id, mapped schema fields
(transformed, or parsed when numeric, skipping unparsable numbers), default
values for absent fields, then the module transform hook. -/
def buildRecord (cfg : ImportConfig) (parseNum : String → Option ℚ)
    (revMap : String → Option String) (companyId : String) (row : Row) : RecordT :=
  let r0 : RecordT := [(cfg.company_id_field, .str companyId)]
  let r1 := cfg.schema.foldl (fun r fp =>
    match revMap fp.1 with
    | none => r
    | some c =>
      if c = "" then r
      else if rowHas row c then
        let v := pyStrip (rowGetD row c "")
        if v = "" then r
        else
          match fp.2.transform with
          | some tr => recSet r fp.1 (tr v)
          | none =>
            if fp.2.type = "number" then
              match parseNum v with
              | some q => recSet r fp.1 (.num q)
              | none => r
            else recSet r fp.1 (.str v)
      else r) r0
  let r2 := cfg.default_values.foldl (fun r dv =>
    if recHas r dv.1 then r else recSet r dv.1 dv.2) r1
  match cfg.pre_insert_transform with
  | some tr => tr r2
  | none => r2

/-- Row loop of execute: skip rows in the skip set, build the others. -/
def buildRowsGo (cfg : ImportConfig) (parseNum : String → Option ℚ)
    (revMap : String → Option String) (companyId : String) (skipSet : Finset ℕ) :
    ℕ → List Row → List RecordT × ℕ
  | _, [] => ([], 0)
  | i, row :: rest =>
    let r := buildRowsGo cfg parseNum revMap companyId skipSet (i + 1) rest
    if i + 1 ∈ skipSet then (r.1, r.2 + 1)
    else (buildRecord cfg parseNum revMap companyId row :: r.1, r.2)

/-- The `skip_row_numbers` set computed by execute: the row numbers of all
conflicts united with those of all validation errors. -/
def skipSetOf (vr : ValidateResult) : Finset ℕ :=
  (vr.conflicts.map (·.row_number)).toFinset
    ∪ (vr.validation_errors.map (·.row_number)).toFinset

/-- Translation of `GenericImportService.execute` up to the bulk insert: the
conflict gate and the construction of the insert payload and skip count. -/
def executePure (cfg : ImportConfig) (parseNum : String → Option ℚ)
    (store : String → String → Option String) (mappings : List (String × String))
    (rows : List Row) (companyId : String) (skipConflicts : Bool) :
    Except ExecError (List RecordT × ℕ) :=
  let vr := validatePure cfg store mappings rows
  if vr.has_conflicts && !skipConflicts then .error .conflictsPresent
  else
    .ok (buildRowsGo cfg parseNum (revMapOf mappings) companyId (skipSetOf vr) 0 rows)

/-! ## Rate limiter (`service.RateLimiter` and `utils/rate_limiter.py`)

Both implementations keep, per key, the list of admitted request times,
prune the entries with `now - t < window` (`t > now - window` in the utils
variant — the same predicate), refuse when `max_requests` entries survive
and record the request otherwise.  Time is modelled by exact rationals. -/

structure RateLimiterCfg where
  max_requests : ℕ := 10
  window_seconds : ℕ := 60
deriving DecidableEq, Repr

/-- Translation of `RateLimiter.check` for one key: the admission verdict
and the updated timestamp list for that key. -/
def rlCheck (rl : RateLimiterCfg) (stamps : List ℚ) (now : ℚ) : Bool × List ℚ :=
  let pruned := stamps.filter (fun t => decide (now - t < rl.window_seconds))
  if rl.max_requests ≤ pruned.length then (false, pruned)
  else (true, pruned ++ [now])

/-- Run a sequence of checks for one key from a starting timestamp list,
returning the verdicts. -/
def rlRun (rl : RateLimiterCfg) (stamps : List ℚ) : List ℚ → List Bool
  | [] => []
  | t :: ts =>
    let step := rlCheck rl stamps t
    step.1 :: rlRun rl step.2 ts

/-! ## Claim C1: missing required fields and the conflict checks

In `GenericImportService.validate` the `continue` after recording a
`missing_<field>` error is the last statement of the loop over required
fields, so it does not skip the remaining checks for the row: the row still
runs the intra-file and store duplicate checks.  The theorem below
evaluates validate on a row whose required `name` is blank while its
`customer_code` collides with an existing store record: a `ValidationError`
and a `duplicate_customer_code` `Conflict` are both emitted, and the row is
counted in both `error_rows_count` and `conflict_rows_count`. -/

/-- C1: a row with a blank required field is NOT short-circuited before the
conflict checks by the generic service: it receives the ValidationError and
also a store-duplicate Conflict, and is counted in both the errored and the
conflicted buckets, contradicting the claimed skip-all-further-checks
behaviour (which the per-module route implementations do have). -/
theorem validate_no_shortcircuit_on_missing_required :
    validatePure CUSTOMERS_CONFIG
      (fun f v => if f = "customer_code" && v = "x1" then some "existing-1" else none)
      [("Code", "customer_code"), ("Name", "name")]
      [[("Code", "X1"), ("Name", "")]]
    = { has_conflicts := true
        conflicts := [⟨1, "duplicate_customer_code", "customer_code", "x1",
                       some "existing-1"⟩]
        validation_errors := [⟨1, "missing_name", "name"⟩]
        valid_rows_count := 0
        conflict_rows_count := 1
        error_rows_count := 1
        skipped_rows_count := 1 } := by
  decide

/-! ## Claim C2: row accounting -/

/-- C2 counterexample: a single row can be counted in both the errored and
the conflicted buckets (its required `name` is blank and its
`customer_code` collides with the store), refuting the claim that no row is
counted in more than one of the errored/conflicted/valid buckets; the
second row is validated normally. -/
theorem validate_bucket_overlap_counterexample :
    (validatePure CUSTOMERS_CONFIG
      (fun f v => if f = "customer_code" && v = "c9" then some "rec-9" else none)
      [("Code", "customer_code"), ("Name", "name")]
      [[("Code", "C9"), ("Name", "")], [("Code", "C10"), ("Name", "Beta")]]).conflicts.map
        (fun c => c.row_number) = [1]
    ∧ (validatePure CUSTOMERS_CONFIG
      (fun f v => if f = "customer_code" && v = "c9" then some "rec-9" else none)
      [("Code", "customer_code"), ("Name", "name")]
      [[("Code", "C9"), ("Name", "")], [("Code", "C10"), ("Name", "Beta")]]).validation_errors.map
        (fun e => e.row_number) = [1]
    ∧ (validatePure CUSTOMERS_CONFIG
      (fun f v => if f = "customer_code" && v = "c9" then some "rec-9" else none)
      [("Code", "customer_code"), ("Name", "name")]
      [[("Code", "C9"), ("Name", "")], [("Code", "C10"), ("Name", "Beta")]]).conflict_rows_count = 1
    ∧ (validatePure CUSTOMERS_CONFIG
      (fun f v => if f = "customer_code" && v = "c9" then some "rec-9" else none)
      [("Code", "customer_code"), ("Name", "name")]
      [[("Code", "C9"), ("Name", "")], [("Code", "C10"), ("Name", "Beta")]]).error_rows_count = 1 := by
  decide

/-- C2 amended: for every validate response, `skipped_rows_count` is the
size of the union of the conflicted and errored row sets,
`valid_rows_count` is the total row count minus `skipped_rows_count`, and
the inclusion-exclusion identity `valid + conflicts + errors = total +
|conflicted ∩ errored|` holds; rows may however belong to both the
conflicted and the errored buckets. -/
theorem validate_row_accounting (cfg : ImportConfig)
    (store : String → String → Option String) (mappings : List (String × String))
    (rows : List Row) :
    (validatePure cfg store mappings rows).skipped_rows_count
      = (((validatePure cfg store mappings rows).conflicts.map (fun c => c.row_number)).toFinset
          ∪ ((validatePure cfg store mappings rows).validation_errors.map (fun e => e.row_number)).toFinset).card
    ∧ (validatePure cfg store mappings rows).valid_rows_count
      = (rows.length : ℤ) - (validatePure cfg store mappings rows).skipped_rows_count
    ∧ (validatePure cfg store mappings rows).valid_rows_count
        + (validatePure cfg store mappings rows).conflict_rows_count
        + (validatePure cfg store mappings rows).error_rows_count
      = (rows.length : ℤ)
        + (((validatePure cfg store mappings rows).conflicts.map (fun c => c.row_number)).toFinset
            ∩ ((validatePure cfg store mappings rows).validation_errors.map (fun e => e.row_number)).toFinset).card := by
  set vr := validatePure cfg store mappings rows with hvr
  set cS := (vr.conflicts.map (fun c => c.row_number)).toFinset with hcS
  set eS := (vr.validation_errors.map (fun e => e.row_number)).toFinset with heS
  refine ⟨rfl, rfl, ?_⟩
  have h := Finset.card_union_add_card_inter cS eS
  have h1 : vr.conflict_rows_count = cS.card := rfl
  have h2 : vr.error_rows_count = eS.card := rfl
  have h3 : vr.valid_rows_count = (rows.length : ℤ) - ((cS ∪ eS).card : ℤ) := rfl
  rw [h1, h2, h3]
  omega

/-! ## Claim C4: needs_review iff confidence below 0.7 -/

/-- C4: every mapping entry in an analyze response, whether produced by the
rule-based classifier or taken from the AI oracle suggestions, carries
`needs_review = true` exactly when its confidence is strictly below 0.7. -/
theorem analyze_needs_review_iff (cfg : ImportConfig) (headers : List String)
    (sampleRows : List (List String)) (aiSuggestions : List Suggestion)
    (m : MappingEntry)
    (hm : m ∈ (analyzeFresh cfg headers sampleRows aiSuggestions).mappings) :
    m.needs_review = true ↔ m.confidence < mkRat 7 10 := by
  simp only [analyzeFresh, mergeMappings, List.mem_append, List.mem_map] at hm
  rcases hm with ⟨c, _, rfl⟩ | ⟨s, _, rfl⟩ <;> simp

/-! ## Claim C5: Scenario A

The analyze pipeline prefilters columns with no non-empty sample value
before the classifier runs, and the prefilter discards them at confidence
0.95, not 0.8 (the classifier 0.8 branch is only reached by columns that
survive the prefilter).  The headers and samples below are the Scenario A
input for the customers module. -/

/-- C5 counterexample: in the analyze pipeline on the Scenario A input, the
all-blank column `Internal Notes` is not discarded at confidence 0.8 — its
mapping entry carries confidence 0.95, contributed by the pre-filter. -/
theorem scenarioA_prefilter_confidence_counterexample :
    ¬ ∃ m ∈ (analyzeFresh CUSTOMERS_CONFIG
        ["Customer Code", "Company Name", "City", "Internal Notes"]
        [["C001", "Acme Corp", "Springfield", ""], ["C002", "Beta LLC", "Shelbyville", ""]]
        []).mappings,
      m.csv_column = "Internal Notes" ∧ m.confidence = mkRat 8 10 := by
  decide

/-- C5 amended: on the Scenario A input, `Internal Notes` is discarded by
the pre-filter at confidence 0.95 without AI involvement (the classifier
sees only the other three columns and leaves no uncertain header), and
`Customer Code`, `Company Name` and `City` resolve via schema patterns at
confidence 0.95. -/
theorem scenarioA_amended :
    analyzeFresh CUSTOMERS_CONFIG
        ["Customer Code", "Company Name", "City", "Internal Notes"]
        [["C001", "Acme Corp", "Springfield", ""], ["C002", "Beta LLC", "Shelbyville", ""]]
        []
      = { mappings := [
            ⟨"Internal Notes", none, mkRat 95 100,
              "Auto-skip: all sample values empty", false⟩,
            ⟨"Customer Code", some "customer_code", mkRat 95 100,
              "Auto-mapped: matches customer_code pattern", false⟩,
            ⟨"Company Name", some "name", mkRat 95 100,
              "Auto-mapped: matches name pattern", false⟩,
            ⟨"City", some "city", mkRat 95 100,
              "Auto-mapped: matches city pattern", false⟩]
          unmapped_required := []
          discarded_columns := ["Internal Notes"]
          column_pairs := [] }
    ∧ (classifyColumnsGeneric
        (prefilterColumns ["Customer Code", "Company Name", "City", "Internal Notes"]
          [["C001", "Acme Corp", "Springfield", ""], ["C002", "Beta LLC", "Shelbyville", ""]]
          []).1
        (prefilterColumns ["Customer Code", "Company Name", "City", "Internal Notes"]
          [["C001", "Acme Corp", "Springfield", ""], ["C002", "Beta LLC", "Shelbyville", ""]]
          []).2.1
        (getMappingPatterns CUSTOMERS_CONFIG) CUSTOMERS_CONFIG.domain_hints []).2 = [] := by
  constructor
  · decide
  · decide

/-- Witness for C4 at a concrete analyze call: the rule-mapped `City`
column has confidence 0.95 and so does not need review. -/
theorem analyze_needs_review_iff_witness :
    ((⟨"City", some "city", mkRat 95 100, "Auto-mapped: matches city pattern", false⟩ :
        MappingEntry).needs_review = true
      ↔ (⟨"City", some "city", mkRat 95 100, "Auto-mapped: matches city pattern", false⟩ :
        MappingEntry).confidence < mkRat 7 10) :=
  analyze_needs_review_iff CUSTOMERS_CONFIG ["City"] [["x"]] [] _ (by decide)

/-! ## Claim C7: partition of headers by the classifier -/

/-- The classification returned by `_classify_single_column` always carries
the header it was asked about. -/
theorem classifySingleColumn_csv_column (header : String) (sampleValues : List String)
    (mappingPatterns : List (String × List Rx)) (domainHints : List String) :
    (classifySingleColumn header sampleValues mappingPatterns domainHints).csv_column
      = header := by
  unfold classifySingleColumn
  dsimp only
  repeat' split
  all_goals rfl

/-- Occurrence counting through the classifier loop: each header occurrence
contributes exactly one entry, to the resolved side or the uncertain
side. -/
theorem classifyGo_count (sampleRows : List (List String))
    (mappingPatterns : List (String × List Rx)) (domainHints : List String)
    (skipColumns : List String) (h : String) (hs : List String) :
    ∀ i : ℕ,
      ((classifyColumnsGo sampleRows mappingPatterns domainHints skipColumns i hs).1.countP
          (fun c => c.csv_column == h))
        + ((classifyColumnsGo sampleRows mappingPatterns domainHints skipColumns i hs).2.count h)
      = hs.count h := by
  induction hs with
  | nil => intro i; simp [classifyColumnsGo]
  | cons hd tl ih =>
    intro i
    by_cases hskip : hd ∈ skipColumns
    · simp only [classifyColumnsGo, if_pos hskip, List.countP_cons, List.count_cons]
      have := ih (i + 1)
      simp only [List.count_cons] at this ⊢
      omega
    · simp only [classifyColumnsGo, if_neg hskip]
      by_cases hai : (classifySingleColumn hd
          ((sampleRows.take 5).map (fun row => row.getD i "")) mappingPatterns
          domainHints).needs_ai
      · simp only [if_pos hai, List.count_cons]
        have := ih (i + 1)
        omega
      · simp only [if_neg hai, List.countP_cons, classifySingleColumn_csv_column,
          List.count_cons]
        have := ih (i + 1)
        omega

/-- C7 counterexample: with the duplicated header list `["a", "a"]` the
claim fails as stated — the header `a` is the `csv_column` of two resolved
classifications rather than of exactly one. -/
theorem classify_partition_counterexample :
    ((classifyColumnsGeneric ["a", "a"] [] [] [] []).1.map (fun c => c.csv_column)
        = ["a", "a"])
    ∧ (classifyColumnsGeneric ["a", "a"] [] [] [] []).2 = [] := by
  decide

/-- C7 amended: for every call to the classifier, each header value `h`
contributes exactly as many output entries (resolved classifications whose
`csv_column` is `h` plus occurrences of `h` in the uncertain list) as it
has occurrences in the input; when the headers are pairwise distinct this
count is exactly one per input header, which is the claimed partition. -/
theorem classify_partition (headers : List String) (sampleRows : List (List String))
    (mappingPatterns : List (String × List Rx)) (domainHints : List String)
    (skipColumns : List String) :
    (∀ h : String,
      ((classifyColumnsGeneric headers sampleRows mappingPatterns domainHints
          skipColumns).1.countP (fun c => c.csv_column == h))
        + ((classifyColumnsGeneric headers sampleRows mappingPatterns domainHints
          skipColumns).2.count h)
      = headers.count h)
    ∧ (headers.Nodup → ∀ h ∈ headers,
      ((classifyColumnsGeneric headers sampleRows mappingPatterns domainHints
          skipColumns).1.countP (fun c => c.csv_column == h))
        + ((classifyColumnsGeneric headers sampleRows mappingPatterns domainHints
          skipColumns).2.count h)
      = 1) := by
  constructor
  · intro h
    exact classifyGo_count sampleRows mappingPatterns domainHints skipColumns h headers 0
  · intro hnd h hmem
    unfold classifyColumnsGeneric
    rw [classifyGo_count sampleRows mappingPatterns domainHints skipColumns h headers 0]
    exact List.count_eq_one_of_mem hnd hmem

/-- Witness for C7 (amended) on distinct headers: the header `x` shows up in
exactly one classifier output. -/
theorem classify_partition_witness :
    ((classifyColumnsGeneric ["x", "y"] [["1", "2"]] [] [] []).1.countP
        (fun c => c.csv_column == "x"))
      + ((classifyColumnsGeneric ["x", "y"] [["1", "2"]] [] [] []).2.count "x") = 1 :=
  (classify_partition ["x", "y"] [["1", "2"]] [] [] []).2 (by decide) "x" (by decide)

/-! ## Claim C8: the column pair detector -/

/-- Disjointness of two `(tier, qty, price)` triples: no shared column. -/
def trsDisj (a b : ℕ × String × String) : Prop :=
  a.2.1 ≠ b.2.1 ∧ a.2.1 ≠ b.2.2 ∧ a.2.2 ≠ b.2.1 ∧ a.2.2 ≠ b.2.2

/-- Disjointness of two `(qty, price)` pairs: no shared column. -/
def prDisj (a b : String × String) : Prop :=
  a.1 ≠ b.1 ∧ a.1 ≠ b.2 ∧ a.2 ≠ b.1 ∧ a.2 ≠ b.2

theorem trsDisj_symm : Symmetric trsDisj := by
  intro a b h
  exact ⟨h.1.symm, h.2.2.1.symm, h.2.1.symm, h.2.2.2.symm⟩

/-- Dict update preserves an entry predicate that the new binding
satisfies. -/
theorem dictInsert_forall {P : String × String → Prop} (m : List (String × String))
    (k v : String) (hm : ∀ e ∈ m, P e) (hkv : P (k, v)) :
    ∀ e ∈ dictInsert m k v, P e := by
  intro e he
  unfold dictInsert at he
  split at he
  · rcases List.mem_map.mp he with ⟨e2, he2, rfl⟩
    split
    · exact hkv
    · exact hm e2 he2
  · rcases List.mem_append.mp he with h1 | h2
    · exact hm e h1
    · have he3 : e = (k, v) := by simpa using h2
      rw [he3]
      exact hkv

/-- Every entry of the `headers_lower` dict maps the normalized form of its
original header to that header. -/
theorem buildHeadersLower_key (headers : List String) :
    ∀ kv ∈ buildHeadersLower headers, kv.1 = lowerNoSpace kv.2 := by
  unfold buildHeadersLower
  suffices h : ∀ (l : List String) (m : List (String × String)),
      (∀ kv ∈ m, kv.1 = lowerNoSpace kv.2) →
      ∀ kv ∈ l.foldl (fun m h => dictInsert m (lowerNoSpace h) h) m,
        kv.1 = lowerNoSpace kv.2 by
    exact h headers [] (by simp)
  intro l
  induction l with
  | nil => intro m hm; simpa using hm
  | cons a t ih =>
    intro m hm
    simp only [List.foldl_cons]
    apply ih
    exact dictInsert_forall m (lowerNoSpace a) a hm rfl

/-- What a successful inner price search yields: an unclaimed original
header from the dict whose key matches the price pattern at the wanted
tier. -/
theorem findPriceFor_spec (priceM : String → Option ℕ) (hl : List (String × String))
    (matched : List String) (tier : ℕ) (s : String)
    (h : findPriceFor priceM hl matched tier = some s) :
    ¬ s ∈ matched ∧ ∃ kv ∈ hl, kv.2 = s ∧ priceM kv.1 = some tier := by
  unfold findPriceFor at h
  rcases List.exists_of_findSome?_eq_some h with ⟨kv, hkv, heq⟩
  split at heq
  · simp at heq
  next hnm =>
    split at heq
    next t hpm =>
      split at heq
      next hteq =>
        have hs : kv.2 = s := by simpa using heq
        constructor
        · rw [← hs]; exact hnm
        · exact ⟨kv, hkv, hs, by rw [hpm, hteq]⟩
      next => simp at heq
    next => simp at heq

/-- Invariants of the outer pair detection loop: the claimed list is
exactly the set of columns of the accumulated triples, the triples are
pairwise column-disjoint, and every triple records the tier captured from
its quantity column. -/
theorem detectGo_inv (qtyM priceM : String → Option ℕ) (hlAll : List (String × String)) :
    ∀ (l : List (String × String)) (P : List (ℕ × String × String)) (M : List String),
      (∀ s, s ∈ M ↔ ∃ tr ∈ P, s = tr.2.1 ∨ s = tr.2.2) →
      P.Pairwise trsDisj →
      (∀ tr ∈ P, qtyM (lowerNoSpace tr.2.1) = some tr.1) →
      (∀ kv ∈ l, kv.1 = lowerNoSpace kv.2) →
      ((∀ s, s ∈ (detectGo qtyM priceM hlAll l P M).2 ↔
          ∃ tr ∈ (detectGo qtyM priceM hlAll l P M).1, s = tr.2.1 ∨ s = tr.2.2)
        ∧ (detectGo qtyM priceM hlAll l P M).1.Pairwise trsDisj
        ∧ ∀ tr ∈ (detectGo qtyM priceM hlAll l P M).1,
            qtyM (lowerNoSpace tr.2.1) = some tr.1) := by
  intro l
  induction l with
  | nil =>
    intro P M hM hP hK _
    exact ⟨hM, hP, hK⟩
  | cons kv rest ih =>
    intro P M hM hP hK hl
    have hkv1 : kv.1 = lowerNoSpace kv.2 := hl kv (by simp)
    have hlrest : ∀ e ∈ rest, e.1 = lowerNoSpace e.2 := fun e he => hl e (by simp [he])
    by_cases hm : kv.2 ∈ M
    · have hstep : detectGo qtyM priceM hlAll (kv :: rest) P M
          = detectGo qtyM priceM hlAll rest P M := by
        simp only [detectGo, if_pos hm]
      rw [hstep]
      exact ih P M hM hP hK hlrest
    · cases hq : qtyM kv.1 with
      | none =>
        have hstep : detectGo qtyM priceM hlAll (kv :: rest) P M
            = detectGo qtyM priceM hlAll rest P M := by
          simp only [detectGo, if_neg hm, hq]
        rw [hstep]
        exact ih P M hM hP hK hlrest
      | some tier =>
        cases hp : findPriceFor priceM hlAll M tier with
        | none =>
          have hstep : detectGo qtyM priceM hlAll (kv :: rest) P M
              = detectGo qtyM priceM hlAll rest P M := by
            simp only [detectGo, if_neg hm, hq, hp]
          rw [hstep]
          exact ih P M hM hP hK hlrest
        | some priceOrig =>
          have hstep : detectGo qtyM priceM hlAll (kv :: rest) P M
              = detectGo qtyM priceM hlAll rest (P ++ [(tier, kv.2, priceOrig)])
                  (M ++ [kv.2, priceOrig]) := by
            simp only [detectGo, if_neg hm, hq, hp]
          rw [hstep]
          rcases findPriceFor_spec priceM hlAll M tier priceOrig hp with
            ⟨hpm, kvp, hkvp, hkvp2, hkvp3⟩
          have hMnotP : ∀ tr ∈ P, tr.2.1 ≠ kv.2 ∧ tr.2.2 ≠ kv.2 := by
            intro tr htr
            constructor <;> intro hcontra
            · exact hm ((hM kv.2).mpr ⟨tr, htr, Or.inl hcontra.symm⟩)
            · exact hm ((hM kv.2).mpr ⟨tr, htr, Or.inr hcontra.symm⟩)
          have hMnotP2 : ∀ tr ∈ P, tr.2.1 ≠ priceOrig ∧ tr.2.2 ≠ priceOrig := by
            intro tr htr
            constructor <;> intro hcontra
            · exact hpm ((hM priceOrig).mpr ⟨tr, htr, Or.inl hcontra.symm⟩)
            · exact hpm ((hM priceOrig).mpr ⟨tr, htr, Or.inr hcontra.symm⟩)
          apply ih
          · intro s
            constructor
            · intro hs
              rcases (by simpa using hs : s ∈ M ∨ s = kv.2 ∨ s = priceOrig) with
                h1 | h2 | h3
              · rcases (hM s).mp h1 with ⟨tr, htr, hor⟩
                exact ⟨tr, by simp [htr], hor⟩
              · exact ⟨(tier, kv.2, priceOrig), by simp, Or.inl h2⟩
              · exact ⟨(tier, kv.2, priceOrig), by simp, Or.inr h3⟩
            · rintro ⟨tr, htr, hor⟩
              rcases (by simpa using htr : tr ∈ P ∨ tr = (tier, kv.2, priceOrig)) with
                h1 | h2
              · have hsM : s ∈ M := (hM s).mpr ⟨tr, h1, hor⟩
                simp [hsM]
              · subst h2
                simp only [List.mem_append]
                right
                simpa using hor
          · rw [List.pairwise_append]
            refine ⟨hP, by simp, ?_⟩
            intro a ha b hb
            have hb2 : b = (tier, kv.2, priceOrig) := by simpa using hb
            subst hb2
            rcases hMnotP a ha with ⟨h1, h2⟩
            rcases hMnotP2 a ha with ⟨h3, h4⟩
            exact ⟨h1, h3, h2, h4⟩
          · intro tr htr
            rcases (by simpa using htr : tr ∈ P ∨ tr = (tier, kv.2, priceOrig)) with
              h1 | h2
            · exact hK tr h1
            · subst h2
              dsimp only
              rw [← hkv1]
              exact hq
          · exact hlrest

/-- A pairwise column-disjoint pair list mentions each quantity column at
most once. -/
theorem countP_fst_le_one {l : List (String × String)}
    (h : l.Pairwise prDisj) (q : String) :
    l.countP (fun pr => pr.1 == q) ≤ 1 := by
  induction l with
  | nil => simp
  | cons a t ih =>
    rw [List.pairwise_cons] at h
    rcases h with ⟨ha, ht⟩
    rw [List.countP_cons]
    by_cases hq : a.1 = q
    · have hz : t.countP (fun pr => pr.1 == q) = 0 := by
        rw [List.countP_eq_zero]
        intro b hb
        have hd := (ha b hb).1
        simp only [beq_iff_eq]
        intro hbq
        exact hd (by rw [hq, hbq])
      simp [hq, hz]
    · have hf : (a.1 == q) = false := by simp [hq]
      simp only [hf, if_false]
      simpa using ih ht

/-- C8: for every header list and pair of capture matchers, the detector
returns pairs that share no column (so each qty column is paired with at
most one price column), a claimed column list that holds exactly the
columns occurring in the pairs, a pair list ascending in the captured tier
number, and the same output on every call; on the Scenario C headers with
the parts pricing patterns it returns exactly
`[(qty1, price1), (qty2, price2)]` claiming all four columns. -/
theorem detect_pairs_properties (headers : List String)
    (qtyM priceM : String → Option ℕ) :
    (detectColumnPairs headers qtyM priceM).1.Pairwise prDisj
    ∧ (∀ q, ((detectColumnPairs headers qtyM priceM).1.countP
        (fun pr => pr.1 == q)) ≤ 1)
    ∧ (∀ s, s ∈ (detectColumnPairs headers qtyM priceM).2 ↔
        ∃ pr ∈ (detectColumnPairs headers qtyM priceM).1, s = pr.1 ∨ s = pr.2)
    ∧ (detectColumnPairs headers qtyM priceM).1.Pairwise (fun a b =>
        (qtyM (lowerNoSpace a.1)).getD 0 ≤ (qtyM (lowerNoSpace b.1)).getD 0)
    ∧ detectColumnPairs headers qtyM priceM = detectColumnPairs headers qtyM priceM
    ∧ detectColumnPairs ["qty1", "price1", "qty2", "price2"]
        partsQtyMatch partsPriceMatch
      = ([("qty1", "price1"), ("qty2", "price2")],
         ["qty1", "price1", "qty2", "price2"]) := by
  obtain ⟨hM, hP, hK⟩ := detectGo_inv qtyM priceM (buildHeadersLower headers)
    (buildHeadersLower headers) [] [] (by simp) (by simp) (by simp)
    (buildHeadersLower_key headers)
  have hperm : ((detectGo qtyM priceM (buildHeadersLower headers)
      (buildHeadersLower headers) [] []).1.mergeSort
        (fun a b => a.1 ≤ b.1)).Perm
      (detectGo qtyM priceM (buildHeadersLower headers)
        (buildHeadersLower headers) [] []).1 :=
    List.mergeSort_perm _ _
  have hsorted : ((detectGo qtyM priceM (buildHeadersLower headers)
      (buildHeadersLower headers) [] []).1.mergeSort
        (fun a b => a.1 ≤ b.1)).Pairwise
      (fun (a b : ℕ × String × String) => a.1 ≤ b.1) := by
    have h := @List.sorted_mergeSort (ℕ × String × String)
      (fun a b => decide (a.1 ≤ b.1))
      (by intro a b c hab hbc; simp at hab hbc ⊢; omega)
      (by intro a b; simp; omega)
      (detectGo qtyM priceM (buildHeadersLower headers)
        (buildHeadersLower headers) [] []).1
    simpa using h
  have hsortDisj : ((detectGo qtyM priceM (buildHeadersLower headers)
      (buildHeadersLower headers) [] []).1.mergeSort
        (fun a b => a.1 ≤ b.1)).Pairwise trsDisj :=
    (List.Perm.pairwise_iff (fun h => trsDisj_symm h) hperm).mpr hP
  have hdisj : (detectColumnPairs headers qtyM priceM).1.Pairwise prDisj := by
    show (((detectGo qtyM priceM (buildHeadersLower headers)
      (buildHeadersLower headers) [] []).1.mergeSort
        (fun a b => a.1 ≤ b.1)).map (fun t => (t.2.1, t.2.2))).Pairwise prDisj
    rw [List.pairwise_map]
    exact hsortDisj
  refine ⟨hdisj, fun q => countP_fst_le_one hdisj q, ?_, ?_, rfl, ?_⟩
  · intro s
    show s ∈ (detectGo qtyM priceM (buildHeadersLower headers)
        (buildHeadersLower headers) [] []).2 ↔ _
    rw [hM s]
    constructor
    · rintro ⟨tr, htr, hor⟩
      exact ⟨(tr.2.1, tr.2.2),
        List.mem_map_of_mem _ (hperm.mem_iff.mpr htr), hor⟩
    · rintro ⟨pr, hpr, hor⟩
      rcases List.mem_map.mp hpr with ⟨tr, htr, rfl⟩
      exact ⟨tr, hperm.mem_iff.mp htr, hor⟩
  · show (((detectGo qtyM priceM (buildHeadersLower headers)
      (buildHeadersLower headers) [] []).1.mergeSort
        (fun a b => a.1 ≤ b.1)).map (fun t => (t.2.1, t.2.2))).Pairwise _
    rw [List.pairwise_map]
    apply List.Pairwise.imp_of_mem ?_ hsorted
    intro a b ha hb hab
    have hKs : ∀ tr ∈ (detectGo qtyM priceM (buildHeadersLower headers)
        (buildHeadersLower headers) [] []).1.mergeSort (fun a b => a.1 ≤ b.1),
        qtyM (lowerNoSpace tr.2.1) = some tr.1 :=
      fun tr htr => hK tr (hperm.mem_iff.mp htr)
    show (qtyM (lowerNoSpace a.2.1)).getD 0 ≤ (qtyM (lowerNoSpace b.2.1)).getD 0
    rw [hKs a ha, hKs b hb]
    simpa using hab
  · have hgo : detectGo partsQtyMatch partsPriceMatch
        (buildHeadersLower ["qty1", "price1", "qty2", "price2"])
        (buildHeadersLower ["qty1", "price1", "qty2", "price2"]) [] []
        = ([(1, "qty1", "price1"), (2, "qty2", "price2")],
           ["qty1", "price1", "qty2", "price2"]) := by
      decide
    simp only [detectColumnPairs]
    rw [hgo]
    rw [List.mergeSort_of_sorted (by decide)]
    rfl

/-! ## Claim C6: the classifier applies its tiers in order, first match wins -/

/-- A `findSome?` whose first success sits at index `i` returns the value
computed there. -/
theorem findSome?_eq_of_first {α β : Type} (f : α → Option β) (d : α) :
    ∀ (l : List α) (i : ℕ), i < l.length → ¬ f (l.getD i d) = none →
      (∀ j, j < i → f (l.getD j d) = none) →
      l.findSome? f = f (l.getD i d) := by
  intro l
  induction l with
  | nil => intro i hi; simp at hi
  | cons a t ih =>
    intro i hi hne hfirst
    cases i with
    | zero =>
      simp only [List.getD_cons_zero] at hne ⊢
      cases hfa : f a with
      | none => exact absurd hfa hne
      | some b => rw [List.findSome?_cons, hfa]
    | succ i2 =>
      have hfa : f a = none := by
        have := hfirst 0 (Nat.succ_pos _)
        simpa using this
      rw [List.findSome?_cons, hfa]
      simp only [List.getD_cons_succ] at hne ⊢
      apply ih i2 (by simpa using hi) hne
      intro j hj
      have := hfirst (j + 1) (by omega)
      simpa using this

/-- A column is all-blank exactly when every sample value strips to the
empty string. -/
theorem nonEmptySamples_eq_nil (sv : List String) :
    nonEmptySamples sv = [] ↔ ∀ v ∈ sv, pyStrip v = "" := by
  unfold nonEmptySamples
  rw [List.filter_eq_nil_iff]
  constructor
  · intro h v hv
    have hp := h v hv
    by_cases hv0 : v = ""
    · rw [hv0]; rfl
    · by_cases hs0 : pyStrip v = ""
      · exact hs0
      · exfalso
        apply hp
        simp [hv0, hs0]
  · intro h v hv
    simp [h v hv]

/-- Python `len(set(l)) == 1` (modelled by `l.dedup.length = 1`) says the
list is non-empty and constant. -/
theorem dedup_length_eq_one {l : List String} (hne : l ≠ []) :
    l.dedup.length = 1 ↔ ∀ a ∈ l, ∀ b ∈ l, a = b := by
  constructor
  · intro h a ha b hb
    rcases List.length_eq_one.mp h with ⟨c, hc⟩
    have ha2 : a ∈ l.dedup := List.mem_dedup.mpr ha
    have hb2 : b ∈ l.dedup := List.mem_dedup.mpr hb
    rw [hc] at ha2 hb2
    simp at ha2 hb2
    rw [ha2, hb2]
  · intro h
    rcases List.exists_mem_of_ne_nil l hne with ⟨a, ha⟩
    have hsub : ∀ x ∈ l.dedup, x = a := fun x hx => h x (List.mem_dedup.mp hx) a ha
    have hmem : a ∈ l.dedup := List.mem_dedup.mpr ha
    cases hd : l.dedup with
    | nil => rw [hd] at hmem; cases hmem
    | cons x t =>
      have hx : x = a := hsub x (by rw [hd]; exact List.mem_cons_self x t)
      have ht : t = [] := by
        cases t with
        | nil => rfl
        | cons y s =>
          have hy : y = a := hsub y (by rw [hd]; simp)
          have hnd := l.nodup_dedup
          rw [hd, hx, hy] at hnd
          simp at hnd
      rw [ht]
      rfl

/-- Branch value of the classifier when a universal skip pattern fires. -/
theorem classify_eq_univ (header : String) (sv : List String)
    (mp : List (String × List Rx)) (dh : List String)
    (h : (UNIVERSAL_SKIP_PATTERNS.any fun r => reMatch r (headerNormalized header)) = true) :
    classifySingleColumn header sv mp dh
      = ⟨header, none, mkRat 95 100, "Auto-skip: system column pattern", false⟩ := by
  unfold classifySingleColumn
  dsimp only
  rw [h]
  simp

/-- Branch value of the classifier when no universal pattern fires and the
schema pattern search succeeds. -/
theorem classify_eq_map (header : String) (sv : List String)
    (mp : List (String × List Rx)) (dh : List String) (f : String)
    (hU : (UNIVERSAL_SKIP_PATTERNS.any fun r => reMatch r (headerNormalized header)) = false)
    (hfs : mp.findSome? (fun fp =>
        if (fp.2.any fun r => reMatch r (headerNormalized header)) = true
        then some fp.1 else none) = some f) :
    classifySingleColumn header sv mp dh
      = ⟨header, some f, mkRat 95 100,
          "Auto-mapped: matches " ++ f ++ " pattern", false⟩ := by
  unfold classifySingleColumn
  dsimp only
  rw [hU, hfs]
  simp

/-- Branch value of the classifier for an all-blank column below the
pattern tiers. -/
theorem classify_eq_blank (header : String) (sv : List String)
    (mp : List (String × List Rx)) (dh : List String)
    (hU : (UNIVERSAL_SKIP_PATTERNS.any fun r => reMatch r (headerNormalized header)) = false)
    (hfs : mp.findSome? (fun fp =>
        if (fp.2.any fun r => reMatch r (headerNormalized header)) = true
        then some fp.1 else none) = none)
    (hnil : nonEmptySamples sv = []) :
    classifySingleColumn header sv mp dh
      = ⟨header, none, mkRat 8 10, "Auto-skip: all sample values empty", false⟩ := by
  unfold classifySingleColumn
  dsimp only
  rw [hU, hfs, hnil]
  simp

/-- Branch value of the classifier for a constant column. -/
theorem classify_eq_const (header : String) (sv : List String)
    (mp : List (String × List Rx)) (dh : List String)
    (hU : (UNIVERSAL_SKIP_PATTERNS.any fun r => reMatch r (headerNormalized header)) = false)
    (hfs : mp.findSome? (fun fp =>
        if (fp.2.any fun r => reMatch r (headerNormalized header)) = true
        then some fp.1 else none) = none)
    (hko : (nonEmptySamples sv).isEmpty = false)
    (hconst : ((nonEmptySamples sv).dedup.length == 1
        && decide (3 ≤ (nonEmptySamples sv).length)) = true) :
    classifySingleColumn header sv mp dh
      = ⟨header, none, mkRat 7 10,
          "Auto-skip: all sample values identical (likely constant)", false⟩ := by
  unfold classifySingleColumn
  dsimp only
  rw [hU, hfs, hko, hconst]
  simp

/-- Branch value of the classifier when an uncertain indicator fires. -/
theorem classify_eq_ai_indicator (header : String) (sv : List String)
    (mp : List (String × List Rx)) (dh : List String)
    (hU : (UNIVERSAL_SKIP_PATTERNS.any fun r => reMatch r (headerNormalized header)) = false)
    (hfs : mp.findSome? (fun fp =>
        if (fp.2.any fun r => reMatch r (headerNormalized header)) = true
        then some fp.1 else none) = none)
    (hko : (nonEmptySamples sv).isEmpty = false)
    (hconst : ((nonEmptySamples sv).dedup.length == 1
        && decide (3 ≤ (nonEmptySamples sv).length)) = false)
    (hany : UNCERTAIN_INDICATORS.any (uncertainHit (headerNormalized header)) = true) :
    classifySingleColumn header sv mp dh
      = ⟨header, none, 0, "Needs AI: ambiguous column name", true⟩ := by
  unfold classifySingleColumn
  dsimp only
  rw [hU, hfs, hko, hconst, hany]
  simp

/-- Branch value of the classifier when only a domain hint fires. -/
theorem classify_eq_ai_hint (header : String) (sv : List String)
    (mp : List (String × List Rx)) (dh : List String)
    (hU : (UNIVERSAL_SKIP_PATTERNS.any fun r => reMatch r (headerNormalized header)) = false)
    (hfs : mp.findSome? (fun fp =>
        if (fp.2.any fun r => reMatch r (headerNormalized header)) = true
        then some fp.1 else none) = none)
    (hko : (nonEmptySamples sv).isEmpty = false)
    (hconst : ((nonEmptySamples sv).dedup.length == 1
        && decide (3 ≤ (nonEmptySamples sv).length)) = false)
    (hany : UNCERTAIN_INDICATORS.any (uncertainHit (headerNormalized header)) = false)
    (hany2 : (dh.any fun hint => strContains (headerLower header) hint) = true) :
    classifySingleColumn header sv mp dh
      = ⟨header, none, 0, "Needs AI: may contain relevant domain data", true⟩ := by
  unfold classifySingleColumn
  dsimp only
  rw [hU, hfs, hko, hconst, hany, hany2]
  simp

/-- Branch value of the classifier when nothing matched. -/
theorem classify_eq_default (header : String) (sv : List String)
    (mp : List (String × List Rx)) (dh : List String)
    (hU : (UNIVERSAL_SKIP_PATTERNS.any fun r => reMatch r (headerNormalized header)) = false)
    (hfs : mp.findSome? (fun fp =>
        if (fp.2.any fun r => reMatch r (headerNormalized header)) = true
        then some fp.1 else none) = none)
    (hko : (nonEmptySamples sv).isEmpty = false)
    (hconst : ((nonEmptySamples sv).dedup.length == 1
        && decide (3 ≤ (nonEmptySamples sv).length)) = false)
    (hany : UNCERTAIN_INDICATORS.any (uncertainHit (headerNormalized header)) = false)
    (hany2 : (dh.any fun hint => strContains (headerLower header) hint) = false) :
    classifySingleColumn header sv mp dh
      = ⟨header, none, mkRat 6 10,
          "Auto-skip: no recognized pattern, likely irrelevant", false⟩ := by
  unfold classifySingleColumn
  dsimp only
  rw [hU, hfs, hko, hconst, hany, hany2]
  simp

/-- C6: on a column that was not pre-skipped, `_classify_single_column`
applies its tiers strictly in order with the first match winning:
a universal skip pattern match discards at 0.95; otherwise the first
matching schema mapping pattern (fields in declared order, patterns in
order, against the normalized lowercased name) maps at 0.95; otherwise
all-blank samples discard at 0.8; otherwise at least three non-empty,
pairwise identical samples discard at 0.7; otherwise an uncertain
indicator or domain hint match marks the column `needs_ai`; otherwise the
column is discarded at 0.6. -/
theorem classify_tiers (header : String) (sampleValues : List String)
    (mp : List (String × List Rx)) (dh : List String) :
    ((∃ r ∈ UNIVERSAL_SKIP_PATTERNS, reMatch r (headerNormalized header) = true) →
      classifySingleColumn header sampleValues mp dh
        = ⟨header, none, mkRat 95 100, "Auto-skip: system column pattern", false⟩)
    ∧ (∀ (i : ℕ) (f : String) (ps : List Rx),
        (∀ r ∈ UNIVERSAL_SKIP_PATTERNS, reMatch r (headerNormalized header) = false) →
        i < mp.length → mp.getD i ("", []) = (f, ps) →
        (∃ p ∈ ps, reMatch p (headerNormalized header) = true) →
        (∀ j, j < i →
          ∀ p ∈ (mp.getD j ("", [])).2, reMatch p (headerNormalized header) = false) →
        classifySingleColumn header sampleValues mp dh
          = ⟨header, some f, mkRat 95 100,
              "Auto-mapped: matches " ++ f ++ " pattern", false⟩)
    ∧ ((∀ r ∈ UNIVERSAL_SKIP_PATTERNS, reMatch r (headerNormalized header) = false) →
        (∀ fp ∈ mp, ∀ p ∈ fp.2, reMatch p (headerNormalized header) = false) →
        (∀ v ∈ sampleValues, pyStrip v = "") →
        classifySingleColumn header sampleValues mp dh
          = ⟨header, none, mkRat 8 10, "Auto-skip: all sample values empty", false⟩)
    ∧ ((∀ r ∈ UNIVERSAL_SKIP_PATTERNS, reMatch r (headerNormalized header) = false) →
        (∀ fp ∈ mp, ∀ p ∈ fp.2, reMatch p (headerNormalized header) = false) →
        3 ≤ (nonEmptySamples sampleValues).length →
        (∀ a ∈ nonEmptySamples sampleValues, ∀ b ∈ nonEmptySamples sampleValues, a = b) →
        classifySingleColumn header sampleValues mp dh
          = ⟨header, none, mkRat 7 10,
              "Auto-skip: all sample values identical (likely constant)", false⟩)
    ∧ ((∀ r ∈ UNIVERSAL_SKIP_PATTERNS, reMatch r (headerNormalized header) = false) →
        (∀ fp ∈ mp, ∀ p ∈ fp.2, reMatch p (headerNormalized header) = false) →
        ¬ (∀ v ∈ sampleValues, pyStrip v = "") →
        ¬ (3 ≤ (nonEmptySamples sampleValues).length
            ∧ ∀ a ∈ nonEmptySamples sampleValues,
                ∀ b ∈ nonEmptySamples sampleValues, a = b) →
        ((∃ ind ∈ UNCERTAIN_INDICATORS, uncertainHit (headerNormalized header) ind = true)
          ∨ (∃ hint ∈ dh, strContains (headerLower header) hint = true)) →
        (classifySingleColumn header sampleValues mp dh).needs_ai = true
          ∧ (classifySingleColumn header sampleValues mp dh).db_field = none
          ∧ (classifySingleColumn header sampleValues mp dh).confidence = 0)
    ∧ ((∀ r ∈ UNIVERSAL_SKIP_PATTERNS, reMatch r (headerNormalized header) = false) →
        (∀ fp ∈ mp, ∀ p ∈ fp.2, reMatch p (headerNormalized header) = false) →
        ¬ (∀ v ∈ sampleValues, pyStrip v = "") →
        ¬ (3 ≤ (nonEmptySamples sampleValues).length
            ∧ ∀ a ∈ nonEmptySamples sampleValues,
                ∀ b ∈ nonEmptySamples sampleValues, a = b) →
        (∀ ind ∈ UNCERTAIN_INDICATORS, uncertainHit (headerNormalized header) ind = false) →
        (∀ hint ∈ dh, strContains (headerLower header) hint = false) →
        classifySingleColumn header sampleValues mp dh
          = ⟨header, none, mkRat 6 10,
              "Auto-skip: no recognized pattern, likely irrelevant", false⟩) := by
  have hfun : ∀ (b : Bool), b = false → ¬ b = true := by intro b hb; rw [hb]; simp
  refine ⟨?_, ?_, ?_, ?_, ?_, ?_⟩
  · intro hU
    exact classify_eq_univ header sampleValues mp dh (List.any_eq_true.mpr hU)
  · intro i f ps hU hi hget hmatch hfirst
    have hU2 : UNIVERSAL_SKIP_PATTERNS.any
        (fun r => reMatch r (headerNormalized header)) = false :=
      List.any_eq_false.mpr (fun r hr => hfun _ (hU r hr))
    have hpos : (ps.any fun r => reMatch r (headerNormalized header)) = true :=
      List.any_eq_true.mpr hmatch
    have hfs : mp.findSome? (fun fp =>
        if (fp.2.any fun r => reMatch r (headerNormalized header)) = true
        then some fp.1 else none) = some f := by
      rw [findSome?_eq_of_first _ ("", []) mp i hi]
      · rw [hget]
        dsimp only
        rw [hpos]
        simp
      · rw [hget]
        dsimp only
        rw [hpos]
        simp
      · intro j hj
        have hnone : ((mp.getD j ("", [])).2.any
            fun r => reMatch r (headerNormalized header)) = false :=
          List.any_eq_false.mpr (fun p hp => hfun _ (hfirst j hj p hp))
        show (if ((mp.getD j ("", [])).2.any
            fun r => reMatch r (headerNormalized header)) = true
          then some (mp.getD j ("", [])).1 else none) = none
        rw [hnone]
        simp
    exact classify_eq_map header sampleValues mp dh f hU2 hfs
  · intro hU hM hblank
    have hU2 : UNIVERSAL_SKIP_PATTERNS.any
        (fun r => reMatch r (headerNormalized header)) = false :=
      List.any_eq_false.mpr (fun r hr => hfun _ (hU r hr))
    have hfs : mp.findSome? (fun fp =>
        if (fp.2.any fun r => reMatch r (headerNormalized header)) = true
        then some fp.1 else none) = none := by
      rw [List.findSome?_eq_none_iff]
      intro fp hfp
      have hc : (fp.2.any fun r => reMatch r (headerNormalized header)) = false :=
        List.any_eq_false.mpr (fun p hp => hfun _ (hM fp hfp p hp))
      rw [hc]
      simp
    exact classify_eq_blank header sampleValues mp dh hU2 hfs
      ((nonEmptySamples_eq_nil sampleValues).mpr hblank)
  · intro hU hM hlen hall
    have hU2 : UNIVERSAL_SKIP_PATTERNS.any
        (fun r => reMatch r (headerNormalized header)) = false :=
      List.any_eq_false.mpr (fun r hr => hfun _ (hU r hr))
    have hfs : mp.findSome? (fun fp =>
        if (fp.2.any fun r => reMatch r (headerNormalized header)) = true
        then some fp.1 else none) = none := by
      rw [List.findSome?_eq_none_iff]
      intro fp hfp
      have hc : (fp.2.any fun r => reMatch r (headerNormalized header)) = false :=
        List.any_eq_false.mpr (fun p hp => hfun _ (hM fp hfp p hp))
      rw [hc]
      simp
    have hne : nonEmptySamples sampleValues ≠ [] := by
      intro hnil
      rw [hnil] at hlen
      simp at hlen
    have hconst : ((nonEmptySamples sampleValues).dedup.length == 1
        && decide (3 ≤ (nonEmptySamples sampleValues).length)) = true := by
      have hded : (nonEmptySamples sampleValues).dedup.length = 1 :=
        (dedup_length_eq_one hne).mpr hall
      simp [hded, hlen]
    exact classify_eq_const header sampleValues mp dh hU2 hfs
      (List.isEmpty_eq_false.mpr hne) hconst
  · intro hU hM hblank hconst hind
    have hU2 : UNIVERSAL_SKIP_PATTERNS.any
        (fun r => reMatch r (headerNormalized header)) = false :=
      List.any_eq_false.mpr (fun r hr => hfun _ (hU r hr))
    have hfs : mp.findSome? (fun fp =>
        if (fp.2.any fun r => reMatch r (headerNormalized header)) = true
        then some fp.1 else none) = none := by
      rw [List.findSome?_eq_none_iff]
      intro fp hfp
      have hc : (fp.2.any fun r => reMatch r (headerNormalized header)) = false :=
        List.any_eq_false.mpr (fun p hp => hfun _ (hM fp hfp p hp))
      rw [hc]
      simp
    have hne : nonEmptySamples sampleValues ≠ [] := by
      intro hnil
      exact hblank ((nonEmptySamples_eq_nil sampleValues).mp hnil)
    have hconst2 : ((nonEmptySamples sampleValues).dedup.length == 1
        && decide (3 ≤ (nonEmptySamples sampleValues).length)) = false := by
      by_cases hlen : 3 ≤ (nonEmptySamples sampleValues).length
      · by_cases hded : (nonEmptySamples sampleValues).dedup.length = 1
        · exact absurd ⟨hlen, (dedup_length_eq_one hne).mp hded⟩ hconst
        · simp [hded]
      · simp [hlen]
    rcases hind with hind1 | hind2
    · have heq := classify_eq_ai_indicator header sampleValues mp dh hU2 hfs
        (List.isEmpty_eq_false.mpr hne) hconst2 (List.any_eq_true.mpr hind1)
      rw [heq]
      exact ⟨rfl, rfl, rfl⟩
    · by_cases hany : UNCERTAIN_INDICATORS.any
          (uncertainHit (headerNormalized header)) = true
      · have heq := classify_eq_ai_indicator header sampleValues mp dh hU2 hfs
          (List.isEmpty_eq_false.mpr hne) hconst2 hany
        rw [heq]
        exact ⟨rfl, rfl, rfl⟩
      · rw [Bool.not_eq_true] at hany
        have heq := classify_eq_ai_hint header sampleValues mp dh hU2 hfs
          (List.isEmpty_eq_false.mpr hne) hconst2 hany (List.any_eq_true.mpr hind2)
        rw [heq]
        exact ⟨rfl, rfl, rfl⟩
  · intro hU hM hblank hconst hind hhint
    have hU2 : UNIVERSAL_SKIP_PATTERNS.any
        (fun r => reMatch r (headerNormalized header)) = false :=
      List.any_eq_false.mpr (fun r hr => hfun _ (hU r hr))
    have hfs : mp.findSome? (fun fp =>
        if (fp.2.any fun r => reMatch r (headerNormalized header)) = true
        then some fp.1 else none) = none := by
      rw [List.findSome?_eq_none_iff]
      intro fp hfp
      have hc : (fp.2.any fun r => reMatch r (headerNormalized header)) = false :=
        List.any_eq_false.mpr (fun p hp => hfun _ (hM fp hfp p hp))
      rw [hc]
      simp
    have hne : nonEmptySamples sampleValues ≠ [] := by
      intro hnil
      exact hblank ((nonEmptySamples_eq_nil sampleValues).mp hnil)
    have hconst2 : ((nonEmptySamples sampleValues).dedup.length == 1
        && decide (3 ≤ (nonEmptySamples sampleValues).length)) = false := by
      by_cases hlen : 3 ≤ (nonEmptySamples sampleValues).length
      · by_cases hded : (nonEmptySamples sampleValues).dedup.length = 1
        · exact absurd ⟨hlen, (dedup_length_eq_one hne).mp hded⟩ hconst
        · simp [hded]
      · simp [hlen]
    exact classify_eq_default header sampleValues mp dh hU2 hfs
      (List.isEmpty_eq_false.mpr hne) hconst2
      (List.any_eq_false.mpr (fun ind hi => hfun _ (hind ind hi)))
      (List.any_eq_false.mpr (fun hint hh => hfun _ (hhint hint hh)))

/-- Witness for C6: the schema-pattern tier maps the `City` column at index
8 of the customers mapping patterns, none of the seven earlier fields nor a
universal pattern matching. -/
theorem classify_tiers_witness :
    classifySingleColumn "City" ["Springfield"]
        (getMappingPatterns CUSTOMERS_CONFIG) CUSTOMERS_CONFIG.domain_hints
      = ⟨"City", some "city", mkRat 95 100,
          "Auto-mapped: matches city pattern", false⟩ :=
  (classify_tiers "City" ["Springfield"]
      (getMappingPatterns CUSTOMERS_CONFIG) CUSTOMERS_CONFIG.domain_hints).2.1
    8 "city" cityPatterns (by decide) (by decide) rfl
    ⟨.seq (altL [strRx "city", strRx "town", strRx "municipality", strRx "locality"])
        .eos, by simp [cityPatterns], by decide⟩
    (by decide)

/-! ## Claim C3: execute gating on conflicts -/

/-- Every conflict emitted for a row carries that row number. -/
theorem csvDupRow_row_number (uniqueFields : List String)
    (revMap : String → Option String) (dups : String → List (String × List ℕ))
    (rn : ℕ) (row : Row) :
    ∀ c ∈ csvDupRow uniqueFields revMap dups rn row, c.row_number = rn := by
  intro c hc
  unfold csvDupRow at hc
  rcases List.mem_filterMap.mp hc with ⟨f, _, heq⟩
  rcases hrm : revMap f with _ | col
  · rw [hrm] at heq; simp at heq
  · rw [hrm] at heq
    dsimp only at heq
    split at heq
    · simp at heq
    · split at heq
      next rns hlk =>
        split at heq
        · simp at heq
        · cases heq; rfl
      next hlk => simp at heq

/-- Every store conflict emitted for a row carries that row number. -/
theorem dbConflictRow_row_number (uniqueFields : List String)
    (revMap : String → Option String) (store : String → String → Option String)
    (rn : ℕ) (row : Row) :
    ∀ c ∈ dbConflictRow uniqueFields revMap store rn row, c.row_number = rn := by
  intro c hc
  unfold dbConflictRow at hc
  rcases List.mem_filterMap.mp hc with ⟨f, _, heq⟩
  rcases hrm : revMap f with _ | col
  · rw [hrm] at heq; simp at heq
  · rw [hrm] at heq
    dsimp only at heq
    split at heq
    · simp at heq
    · split at heq
      · simp at heq
      · split at heq
        · cases heq; rfl
        · simp at heq

/-- Every validation error emitted for a row carries that row number. -/
theorem requiredErrorsRow_row_number (requiredFields : List String)
    (revMap : String → Option String) (rn : ℕ) (row : Row) :
    ∀ e ∈ requiredErrorsRow requiredFields revMap rn row, e.row_number = rn := by
  intro e he
  unfold requiredErrorsRow at he
  rcases List.mem_filterMap.mp he with ⟨f, _, heq⟩
  dsimp only at heq
  split at heq
  · cases heq; rfl
  · simp at heq

/-- Conflict row numbers name actual rows: they lie in `[1, rows.length]`. -/
theorem validate_conflict_bounds (cfg : ImportConfig)
    (store : String → String → Option String) (mappings : List (String × String))
    (rows : List Row) :
    ∀ c ∈ (validatePure cfg store mappings rows).conflicts,
      1 ≤ c.row_number ∧ c.row_number ≤ rows.length := by
  intro c hc
  have hc2 : c ∈ (rows.enum).flatMap (fun p =>
      csvDupRow cfg.unique_fields (revMapOf mappings)
        (fun f => csvDupsFor (occurrencesFor (revMapOf mappings f) rows)) (p.1 + 1) p.2
      ++ dbConflictRow cfg.unique_fields (revMapOf mappings) store (p.1 + 1) p.2) := hc
  rcases List.mem_flatMap.mp hc2 with ⟨p, hp, hcp⟩
  have hlt := List.fst_lt_of_mem_enum hp
  rcases List.mem_append.mp hcp with h1 | h2
  · rw [csvDupRow_row_number _ _ _ _ _ c h1]; omega
  · rw [dbConflictRow_row_number _ _ _ _ _ c h2]; omega

/-- Validation error row numbers name actual rows. -/
theorem validate_error_bounds (cfg : ImportConfig)
    (store : String → String → Option String) (mappings : List (String × String))
    (rows : List Row) :
    ∀ e ∈ (validatePure cfg store mappings rows).validation_errors,
      1 ≤ e.row_number ∧ e.row_number ≤ rows.length := by
  intro e he
  have he2 : e ∈ (rows.enum).flatMap (fun p =>
      requiredErrorsRow (getRequiredFields cfg) (revMapOf mappings) (p.1 + 1) p.2) := he
  rcases List.mem_flatMap.mp he2 with ⟨p, hp, hep⟩
  have hlt := List.fst_lt_of_mem_enum hp
  rw [requiredErrorsRow_row_number _ _ _ _ e hep]
  omega

/-- The row loop of execute builds exactly the records of the rows whose
number avoids the skip set, in input order, and counts the others. -/
theorem buildRowsGo_spec (cfg : ImportConfig) (parseNum : String → Option ℚ)
    (revMap : String → Option String) (companyId : String) (S : Finset ℕ)
    (rows : List Row) :
    ∀ k : ℕ,
      buildRowsGo cfg parseNum revMap companyId S k rows
        = (((rows.enumFrom k).filter (fun p => decide (p.1 + 1 ∉ S))).map
             (fun p => buildRecord cfg parseNum revMap companyId p.2),
           (rows.enumFrom k).countP (fun p => decide (p.1 + 1 ∈ S))) := by
  induction rows with
  | nil => intro k; simp [buildRowsGo, List.enumFrom]
  | cons row rest ih =>
    intro k
    have hen : (row :: rest).enumFrom k = (k, row) :: rest.enumFrom (k + 1) := rfl
    by_cases hmem : k + 1 ∈ S
    · have hgo : buildRowsGo cfg parseNum revMap companyId S k (row :: rest)
          = ((buildRowsGo cfg parseNum revMap companyId S (k + 1) rest).1,
             (buildRowsGo cfg parseNum revMap companyId S (k + 1) rest).2 + 1) := by
        simp [buildRowsGo, hmem]
      rw [hgo, ih (k + 1), hen]
      simp [List.filter_cons, List.countP_cons, hmem]
    · have hgo : buildRowsGo cfg parseNum revMap companyId S k (row :: rest)
          = (buildRecord cfg parseNum revMap companyId row
               :: (buildRowsGo cfg parseNum revMap companyId S (k + 1) rest).1,
             (buildRowsGo cfg parseNum revMap companyId S (k + 1) rest).2) := by
        simp [buildRowsGo, hmem]
      rw [hgo, ih (k + 1), hen]
      simp [List.filter_cons, List.countP_cons, hmem]

/-- Counting row numbers over the index range recovers the cardinality of a
set of row numbers within bounds. -/
theorem countP_range_mem_card (S : Finset ℕ) :
    ∀ n : ℕ, (∀ x ∈ S, 1 ≤ x ∧ x ≤ n) →
      (List.range n).countP (fun i => decide (i + 1 ∈ S)) = S.card := by
  intro n
  induction n generalizing S with
  | zero =>
    intro hS
    have : S = ∅ := by
      ext x
      simp only [Finset.not_mem_empty, iff_false]
      intro hx
      have := hS x hx
      omega
    simp [this]
  | succ n ih =>
    intro hS
    rw [List.range_succ, List.countP_append]
    have hS2 : ∀ x ∈ S.erase (n + 1), 1 ≤ x ∧ x ≤ n := by
      intro x hx
      have hne := Finset.ne_of_mem_erase hx
      have := hS x (Finset.mem_of_mem_erase hx)
      omega
    have hcongr : (List.range n).countP (fun i => decide (i + 1 ∈ S))
        = (List.range n).countP (fun i => decide (i + 1 ∈ S.erase (n + 1))) := by
      apply List.countP_congr
      intro i hi
      have hi2 := List.mem_range.mp hi
      simp only [decide_eq_true_eq, Finset.mem_erase]
      constructor
      · intro h; exact ⟨by omega, h⟩
      · intro h; exact h.2
    rw [hcongr, ih (S.erase (n + 1)) hS2]
    by_cases hmem : n + 1 ∈ S
    · have hcard := Finset.card_erase_of_mem hmem
      have hpos : 1 ≤ S.card := Finset.card_pos.mpr ⟨n + 1, hmem⟩
      simp [hmem, hcard]
      omega
    · simp [hmem, Finset.erase_eq_of_not_mem hmem]

/-- C3: when a fresh validation reports conflicts, execute with
`skip_conflicts = false` fails with the conflict error before any insert,
while execute with `skip_conflicts = true` passes to the single bulk insert
exactly the built records of the rows whose number is outside the skip set
(conflicted rows united with errored rows), in order, and reports
`skipped_count` equal to the size of the skip set. -/
theorem execute_gating (cfg : ImportConfig) (parseNum : String → Option ℚ)
    (store : String → String → Option String) (mappings : List (String × String))
    (rows : List Row) (companyId : String)
    (hc : (validatePure cfg store mappings rows).has_conflicts = true) :
    executePure cfg parseNum store mappings rows companyId false
      = .error .conflictsPresent
    ∧ executePure cfg parseNum store mappings rows companyId true
      = .ok ((((rows.enum).filter (fun p =>
            decide (p.1 + 1 ∉ skipSetOf (validatePure cfg store mappings rows)))).map
              (fun p => buildRecord cfg parseNum (revMapOf mappings) companyId p.2)),
            (skipSetOf (validatePure cfg store mappings rows)).card) := by
  constructor
  · simp only [executePure]
    rw [hc]
    rfl
  · simp only [executePure]
    rw [hc]
    simp only [Bool.not_true, Bool.and_false, Bool.false_eq_true, if_false]
    have hrun := buildRowsGo_spec cfg parseNum (revMapOf mappings) companyId
      (skipSetOf (validatePure cfg store mappings rows)) rows 0
    have henum : rows.enumFrom 0 = rows.enum := rfl
    rw [henum] at hrun
    rw [hrun]
    have hcnt : (rows.enum).countP
        (fun p => decide (p.1 + 1 ∈ skipSetOf (validatePure cfg store mappings rows)))
        = (skipSetOf (validatePure cfg store mappings rows)).card := by
      have hmapfst : (rows.enum).map Prod.fst = List.range rows.length :=
        List.enum_map_fst rows
      have h1 : (rows.enum).countP
          (fun p => decide (p.1 + 1 ∈ skipSetOf (validatePure cfg store mappings rows)))
          = ((rows.enum).map Prod.fst).countP
            (fun i => decide (i + 1 ∈ skipSetOf (validatePure cfg store mappings rows))) := by
        rw [List.countP_map]
        rfl
      rw [h1, hmapfst]
      apply countP_range_mem_card
      intro x hx
      rcases Finset.mem_union.mp hx with hx1 | hx2
      · rcases List.mem_toFinset.mp hx1 with hx1
        rcases List.mem_map.mp hx1 with ⟨c, hcmem, rfl⟩
        exact validate_conflict_bounds cfg store mappings rows c hcmem
      · rcases List.mem_toFinset.mp hx2 with hx2
        rcases List.mem_map.mp hx2 with ⟨e, hemem, rfl⟩
        exact validate_error_bounds cfg store mappings rows e hemem
    rw [hcnt]

/-- Witness for C3 at a concrete conflicted input: two rows share the
customer code `X1`, both become conflicts, so execute refuses without skip
and inserts nothing with skip (both rows are in the skip set). -/
theorem execute_gating_witness :
    executePure CUSTOMERS_CONFIG (fun _ => none) (fun _ _ => none)
        [("Code", "customer_code"), ("Name", "name")]
        [[("Code", "X1"), ("Name", "A")], [("Code", "X1"), ("Name", "B")]] "co" false
      = .error .conflictsPresent
    ∧ executePure CUSTOMERS_CONFIG (fun _ => none) (fun _ _ => none)
        [("Code", "customer_code"), ("Name", "name")]
        [[("Code", "X1"), ("Name", "A")], [("Code", "X1"), ("Name", "B")]] "co" true
      = .ok (((([[("Code", "X1"), ("Name", "A")], [("Code", "X1"), ("Name", "B")]] :
            List Row).enum.filter (fun p =>
            decide (p.1 + 1 ∉ skipSetOf (validatePure CUSTOMERS_CONFIG (fun _ _ => none)
              [("Code", "customer_code"), ("Name", "name")]
              [[("Code", "X1"), ("Name", "A")], [("Code", "X1"), ("Name", "B")]])))).map
              (fun p => buildRecord CUSTOMERS_CONFIG (fun _ => none)
                (revMapOf [("Code", "customer_code"), ("Name", "name")]) "co" p.2)),
            (skipSetOf (validatePure CUSTOMERS_CONFIG (fun _ _ => none)
              [("Code", "customer_code"), ("Name", "name")]
              [[("Code", "X1"), ("Name", "A")], [("Code", "X1"), ("Name", "B")]])).card) :=
  execute_gating CUSTOMERS_CONFIG (fun _ => none) (fun _ _ => none)
    [("Code", "customer_code"), ("Name", "name")]
    [[("Code", "X1"), ("Name", "A")], [("Code", "X1"), ("Name", "B")]] "co" (by decide)

/-! ## Claim C10: blank values in unique fields never conflict -/

/-- Keys after a dict update: the updated key or one that was already
present. -/
theorem addOcc_key (m : List (String × List ℕ)) (v : String) (rn : ℕ) :
    ∀ e ∈ addOcc m v rn, e.1 = v ∨ ∃ e2 ∈ m, e.1 = e2.1 := by
  intro e he
  unfold addOcc at he
  split at he
  · rcases List.mem_map.mp he with ⟨e2, he2, rfl⟩
    right
    refine ⟨e2, he2, ?_⟩
    split <;> rfl
  · rcases List.mem_append.mp he with h1 | h2
    · right; exact ⟨e, h1, rfl⟩
    · left
      have : e = (v, [rn]) := by simpa using h2
      rw [this]

/-- Pass 1 never indexes a blank value: every key of the occurrence map of
a unique field is non-empty. -/
theorem occurrencesFor_key_ne_blank (csvCol : Option String) (rows : List Row) :
    ∀ e ∈ occurrencesFor csvCol rows, ¬ e.1 = "" := by
  unfold occurrencesFor
  generalize rows.enum = l
  suffices h : ∀ (l : List (ℕ × Row)) (m : List (String × List ℕ)),
      (∀ e ∈ m, ¬ e.1 = "") → ∀ e ∈ l.foldl (occStep csvCol) m, ¬ e.1 = "" by
    exact h l [] (by simp)
  intro l
  induction l with
  | nil => intro m hm; simpa using hm
  | cons p t ih =>
    intro m hm
    simp only [List.foldl_cons]
    apply ih
    intro e he
    unfold occStep at he
    rcases csvCol with _ | c
    · exact hm e he
    · dsimp only at he
      by_cases hcb : c = ""
      · rw [if_pos hcb] at he; exact hm e he
      · rw [if_neg hcb] at he
        by_cases hvb : pyLower (pyStrip (rowGetD p.2 c "")) = ""
        · rw [if_pos hvb] at he; exact hm e he
        · rw [if_neg hvb] at he
          rcases addOcc_key m _ _ e he with h1 | ⟨e2, he2, h2⟩
          · rw [h1]; exact hvb
          · rw [h2]; exact hm e2 he2

/-- A successful occurrence lookup means the value is a key of the map. -/
theorem lookupOcc_some (m : List (String × List ℕ)) (v : String) (rns : List ℕ)
    (h : lookupOcc m v = some rns) : ∃ e ∈ m, e.1 = v := by
  unfold lookupOcc at h
  cases hf : m.find? (fun e => e.1 == v) with
  | none => rw [hf] at h; simp at h
  | some e =>
    refine ⟨e, List.mem_of_find?_eq_some hf, ?_⟩
    have := List.find?_some hf
    simpa using this

/-- Intra-file duplicate conflicts only report keys of the duplicate
index. -/
theorem csvDupRow_value_ne_blank (uniqueFields : List String)
    (revMap : String → Option String) (dups : String → List (String × List ℕ))
    (rn : ℕ) (row : Row) (hdups : ∀ f, ∀ e ∈ dups f, ¬ e.1 = "") :
    ∀ c ∈ csvDupRow uniqueFields revMap dups rn row, ¬ c.value = "" := by
  intro c hc
  unfold csvDupRow at hc
  rcases List.mem_filterMap.mp hc with ⟨f, _, heq⟩
  rcases hrm : revMap f with _ | col
  · rw [hrm] at heq; simp at heq
  · rw [hrm] at heq
    dsimp only at heq
    split at heq
    · simp at heq
    · split at heq
      next rns hlk =>
        split at heq
        · simp at heq
        · rcases lookupOcc_some _ _ _ hlk with ⟨e, he, hek⟩
          have hkey := hdups f e he
          have : c.value = pyLower (pyStrip (rowGetD row col "")) := by
            cases heq; rfl
          rw [this, ← hek]
          exact hkey
      next hlk => simp at heq

/-- Store duplicate conflicts are guarded against blank values. -/
theorem dbConflictRow_value_ne_blank (uniqueFields : List String)
    (revMap : String → Option String) (store : String → String → Option String)
    (rn : ℕ) (row : Row) :
    ∀ c ∈ dbConflictRow uniqueFields revMap store rn row, ¬ c.value = "" := by
  intro c hc
  unfold dbConflictRow at hc
  rcases List.mem_filterMap.mp hc with ⟨f, _, heq⟩
  rcases hrm : revMap f with _ | col
  · rw [hrm] at heq; simp at heq
  · rw [hrm] at heq
    dsimp only at heq
    split at heq
    · simp at heq
    · split at heq
      next hblank =>
        simp at heq
      next hblank =>
        split at heq
        · have : c.value = pyLower (pyStrip (rowGetD row col "")) := by
            cases heq; rfl
          rw [this]
          exact hblank
        · simp at heq

/-- C10: the generic validate never reports a conflict for a blank value of
a unique field — blank values are excluded from the pass 1 duplicate index
and guarded out of the store duplicate check — and concretely two rows that
are both blank (empty or whitespace-only) in the unique `customer_code`
column produce no conflict at all. -/
theorem validate_blank_unique_no_conflict :
    (∀ (cfg : ImportConfig) (store : String → String → Option String)
        (mappings : List (String × String)) (rows : List Row),
      ∀ c ∈ (validatePure cfg store mappings rows).conflicts, ¬ c.value = "")
    ∧ (validatePure CUSTOMERS_CONFIG (fun _ _ => none)
        [("Code", "customer_code"), ("Name", "name")]
        [[("Code", ""), ("Name", "Acme")], [("Code", "  "), ("Name", "Beta")]]).conflicts
      = [] := by
  constructor
  · intro cfg store mappings rows c hc
    have hc2 : c ∈ (rows.enum).flatMap (fun p =>
        csvDupRow cfg.unique_fields (revMapOf mappings)
          (fun f => csvDupsFor (occurrencesFor (revMapOf mappings f) rows)) (p.1 + 1) p.2
        ++ dbConflictRow cfg.unique_fields (revMapOf mappings) store (p.1 + 1) p.2) := hc
    rcases List.mem_flatMap.mp hc2 with ⟨p, _, hcp⟩
    rcases List.mem_append.mp hcp with h1 | h2
    · refine csvDupRow_value_ne_blank _ _ _ _ _ ?_ c h1
      intro f e he
      exact occurrencesFor_key_ne_blank (revMapOf mappings f) rows e
        (List.mem_of_mem_filter he)
    · exact dbConflictRow_value_ne_blank _ _ _ _ _ c h2
  · decide

/-- Witness for C10: the store-duplicate conflict reported in a concrete
validate call carries a non-blank value. -/
theorem validate_blank_unique_no_conflict_witness :
    ¬ (⟨1, "duplicate_customer_code", "customer_code", "x1",
        some "existing-1"⟩ : VConflict).value = "" :=
  validate_blank_unique_no_conflict.1 CUSTOMERS_CONFIG
    (fun f v => if f = "customer_code" && v = "x1" then some "existing-1" else none)
    [("Code", "customer_code"), ("Name", "name")]
    [[("Code", "X1"), ("Name", "Ok Co")]]
    _ (by decide)

/-! ## Claim C9: the sliding window rate limiter -/

/-- Running the limiter over call times that all lie within one window of
each other admits exactly the calls that still fit under the cap, counting
the timestamps already recorded. -/
theorem rlRun_spec (rl : RateLimiterCfg) (ts : List ℚ) :
    ∀ stamps : List ℚ,
      (∀ a ∈ stamps ++ ts, ∀ b ∈ stamps ++ ts, a - b < (rl.window_seconds : ℚ)) →
      rlRun rl stamps ts
        = (List.range ts.length).map
            (fun i => decide (stamps.length + i < rl.max_requests)) := by
  induction ts with
  | nil => intro stamps _; simp [rlRun]
  | cons t ts ih =>
    intro stamps h
    have hmem : ∀ x ∈ stamps, t - x < (rl.window_seconds : ℚ) := by
      intro x hx
      exact h t (by simp) x (by simp [hx])
    have hpr : stamps.filter (fun x => decide (t - x < (rl.window_seconds : ℚ))) = stamps := by
      apply List.filter_eq_self.mpr
      intro x hx
      simp [hmem x hx]
    by_cases hcap : rl.max_requests ≤ stamps.length
    · have hchk : rlCheck rl stamps t = (false, stamps) := by
        simp [rlCheck, hpr, hcap]
      have hrun : rlRun rl stamps (t :: ts) = false :: rlRun rl stamps ts := by
        simp [rlRun, hchk]
      have hsub : ∀ a ∈ stamps ++ ts, a ∈ stamps ++ t :: ts := by
        intro a ha; simp at ha ⊢; tauto
      rw [hrun, ih stamps (fun a ha b hb => h a (hsub a ha) b (hsub b hb))]
      simp only [List.length_cons]
      rw [List.range_succ_eq_map, List.map_cons, List.map_map]
      congr 1
      · symm
        apply decide_eq_false
        omega
      · apply List.map_congr_left
        intro i _
        simp only [Function.comp_apply]
        rw [decide_eq_false (show ¬(stamps.length + i < rl.max_requests) by omega)]
        exact (decide_eq_false (by omega)).symm
    · have hchk : rlCheck rl stamps t = (true, stamps ++ [t]) := by
        simp [rlCheck, hpr, hcap]
      have hrun : rlRun rl stamps (t :: ts) = true :: rlRun rl (stamps ++ [t]) ts := by
        simp [rlRun, hchk]
      have hsub : ∀ a ∈ (stamps ++ [t]) ++ ts, a ∈ stamps ++ t :: ts := by
        intro a ha; simp at ha ⊢; tauto
      rw [hrun, ih (stamps ++ [t]) (fun a ha b hb => h a (hsub a ha) b (hsub b hb))]
      simp only [List.length_cons]
      rw [List.range_succ_eq_map, List.map_cons, List.map_map]
      congr 1
      · symm
        apply decide_eq_true
        omega
      · apply List.map_congr_left
        intro i _
        simp only [Function.comp_apply, List.length_append, List.length_cons,
          List.length_nil]
        apply decide_eq_decide.mpr
        omega

/-- C9: for a tenant key starting from an empty record, a sequence of calls
whose times all fall within one window admits exactly the first
`max_requests` calls and rejects every later one (in particular the call
number `max_requests + 1`); moreover, from any recorded state, a check at a
time at which fewer than `max_requests` recorded timestamps remain inside
the window succeeds, and one at which at least `max_requests` remain
fails. -/
theorem rate_limiter_sliding_window (rl : RateLimiterCfg) (times : List ℚ)
    (hwindow : ∀ a ∈ times, ∀ b ∈ times, a - b < (rl.window_seconds : ℚ)) :
    rlRun rl [] times
      = (List.range times.length).map (fun i => decide (i < rl.max_requests))
    ∧ (∀ (stamps : List ℚ) (now : ℚ),
        stamps.countP (fun t => decide (now - t < (rl.window_seconds : ℚ)))
            < rl.max_requests →
        (rlCheck rl stamps now).1 = true)
    ∧ (∀ (stamps : List ℚ) (now : ℚ),
        rl.max_requests
            ≤ stamps.countP (fun t => decide (now - t < (rl.window_seconds : ℚ))) →
        (rlCheck rl stamps now).1 = false) := by
  refine ⟨?_, ?_, ?_⟩
  · have h := rlRun_spec rl times [] (by simpa using hwindow)
    simpa using h
  · intro stamps now hcnt
    rw [List.countP_eq_length_filter] at hcnt
    simp [rlCheck, Nat.not_le.mpr hcnt, Nat.not_le_of_lt hcnt]
  · intro stamps now hcnt
    rw [List.countP_eq_length_filter] at hcnt
    simp [rlCheck, hcnt]

/-- Witness for C9 with the default policy of 10 requests per 60 second
window: eleven calls at time 0 admit exactly the first ten and reject the
eleventh, and after the window has passed a later call is admitted again. -/
theorem rate_limiter_sliding_window_witness :
    rlRun ⟨10, 60⟩ [] (List.replicate 11 0)
        = List.replicate 10 true ++ [false]
    ∧ (rlCheck ⟨10, 60⟩ (List.replicate 10 (0 : ℚ)) 61).1 = true := by
  constructor
  · have h := (rate_limiter_sliding_window ⟨10, 60⟩ (List.replicate 11 0)
      (by
        intro a ha b hb
        rw [List.eq_of_mem_replicate ha, List.eq_of_mem_replicate hb]
        norm_num)).1
    rw [h]
    decide
  · apply (rate_limiter_sliding_window ⟨10, 60⟩ [] (by intro a ha; cases ha)).2.1
    have hz : ∀ t ∈ List.replicate 10 (0 : ℚ),
        ¬((fun t => decide ((61 : ℚ) - t < ((60 : ℕ) : ℚ))) t = true) := by
      intro t ht
      rw [List.eq_of_mem_replicate ht]
      norm_num
    rw [List.countP_eq_zero.mpr hz]
    norm_num

end Contour
